import Mathlib

/-!
Verification of the spatial/classification index builder, the query engine and
the geometry sampler of `app.py` (Talk-to-BIM).

The Python code is shallowly embedded: Python `str` values become `String`
(a list of unicode code points, as in the 4.14 core), Python dicts become
association lists with insertion-order/overwrite semantics made explicit
(`lookupAssoc` / `insertAssoc`), IFC entities become records carrying exactly
the attributes the code reads, and the two regular expressions used by the
query engine are implemented as explicit leftmost-match scanners over lists of
characters with Python's `\b` / `\s` / greedy-with-backtracking semantics.
`answer` can raise `KeyError` in Python (`index["rooms"][rid]`); the embedding
returns `Except Unit String`, with `.error ()` marking that raise.

Caveats of the embedding, recorded here once: Lean's `Char.toLower` lowercases
only ASCII, whereas Python's `str.lower` is unicode-aware; the program's own
vocabulary only ever needs ASCII case-folding (German umlauts in it are already
lower case).  Python's `\w` is unicode-aware; `isWordCharB` covers ASCII word
characters plus the German letters that occur in the program's vocabulary.
`get_psets` traverses `IsDefinedBy` relationships of an element; the embedding
stores its result directly on the element (`Element.psets`), since no claim
depends on the traversal's internals.
-/

namespace App

/-! ## Character and string helpers -/

/-- The character class `[0-9a-zA-Z_$]` used by the id-capturing regexes. -/
def idCharP (c : Char) : Bool := c.isAlphanum || c = '_' || c = '$'

/-- Python's `\w` (word character) for the characters this program handles:
ASCII alphanumerics, underscore, and the German letters of its vocabulary. -/
def isWordCharB (c : Char) : Bool :=
  c.isAlphanum || c = '_' || c = 'ä' || c = 'ö' || c = 'ü' || c = 'ß'

/-- `listHasPre n h` is true iff the list `h` starts with `n`. -/
def listHasPre : List Char → List Char → Bool
  | [], _ => true
  | _ :: _, [] => false
  | n :: ns, h :: hs => n = h && listHasPre ns hs

/-- Python's substring test `n in h` on the underlying character lists. -/
def subOccurs (n : List Char) : List Char → Bool
  | [] => n.isEmpty
  | c :: hs => listHasPre n (c :: hs) || subOccurs n hs

/-- Substring test on `String`s: Python `n in h`. -/
def subStr (n h : String) : Bool := subOccurs n.data h.data

/-- Drop trailing whitespace (the right half of Python's `str.strip`). -/
def dropTrailingWs : List Char → List Char
  | [] => []
  | c :: rest =>
    let r := dropTrailingWs rest
    if r.isEmpty && c.isWhitespace then [] else c :: r

/-- Python's `str.strip()`. -/
def stripWs (l : List Char) : List Char :=
  dropTrailingWs (l.dropWhile (fun c => c.isWhitespace))

/- `re.sub(r"\s+", " ", ·)`: collapse every maximal whitespace run to one
space.  `collapseAfterWs` is the state "inside a whitespace run whose single
`' '` has already been emitted". -/
mutual

def collapseWs : List Char → List Char
  | [] => []
  | c :: rest =>
    if c.isWhitespace then ' ' :: collapseAfterWs rest else c :: collapseWs rest

def collapseAfterWs : List Char → List Char
  | [] => []
  | c :: rest =>
    if c.isWhitespace then collapseAfterWs rest else c :: collapseWs rest

end

/-- `normalize` from app.py: `re.sub(r"\s+", " ", (s or "").strip().lower())`. -/
def normalizeChars (l : List Char) : List Char :=
  collapseWs ((stripWs l).map Char.toLower)

/-- `normalize` lifted to `String`. -/
def normalize (s : String) : String := String.mk (normalizeChars s.data)

/-- Python's `str` `<` (lexicographic on code points), made executable. -/
def pyStrLtChars : List Char → List Char → Bool
  | [], [] => false
  | [], _ :: _ => true
  | _ :: _, [] => false
  | a :: as, b :: bs => if a < b then true else if b < a then false else pyStrLtChars as bs

/-- Python string `<` on `String`s. -/
def pyStrLt (a b : String) : Bool := pyStrLtChars a.data b.data

/-- Python's `str.capitalize()` (first char upper, rest lower). -/
def capitalizeStr (s : String) : String :=
  match s.data with
  | [] => ""
  | c :: rest => String.mk (c.toUpper :: rest.map Char.toLower)

/-! ## Association lists modelling Python dicts

A Python dict is modelled as a `List (String × α)` with unique keys:
assignment overwrites the value in place (keeping the key's original
position), otherwise appends; lookup finds the first matching key. -/

def lookupAssoc {α : Type} : List (String × α) → String → Option α
  | [], _ => none
  | p :: rest, k => if p.1 = k then some p.2 else lookupAssoc rest k

def insertAssoc {α : Type} (l : List (String × α)) (k : String) (v : α) : List (String × α) :=
  if l.any (fun p => p.1 = k) then l.map (fun p => if p.1 = k then (k, v) else p)
  else l ++ [(k, v)]

def assocKeys {α : Type} (l : List (String × α)) : List String := l.map (fun p => p.1)

/-- Left-biased choice on `Option` (used to state lookup lemmas). -/
def optOr {α : Type} : Option α → Option α → Option α
  | some a, _ => some a
  | none, b => b

/-! ## Data model -/

/-- An IFC element as the code reads it: `GlobalId`, `is_a()`, `Name`,
`LongName` (spaces only), `ObjectType`, `PredefinedType`, and the property
sets `get_psets` would extract.  Absent optional attributes are modelled by
`""` (the code funnels them through `safe_str(getattr(e, ..., ""))`). -/
structure Element where
  global_id : String
  ifc_class : String
  name : String
  long_name : String
  object_type : String
  predefined_type : String
  psets : List (String × List (String × String))
deriving DecidableEq, Repr

/-- The minimal per-element summary stored in `global_lookup`. -/
structure Meta where
  global_id : String
  ifc_class : String
  name : String
  object_type : String
  predefined_type : String
deriving DecidableEq, Repr

/-- A classified (GA-relevant) item in a room's `ga_items` list. -/
structure GaItem where
  global_id : String
  ifc_class : String
  name : String
  object_type : String
  predefined_type : String
  category : String
  psets : List (String × List (String × String))
deriving DecidableEq, Repr

/-- One room record of the index. -/
structure Room where
  room_id : String
  room_name : String
  room_longname : String
  ga_items : List GaItem
deriving DecidableEq, Repr

/-- The index: `rooms` and `global_lookup` are Python dicts. -/
structure Index where
  rooms : List (String × Room)
  global_lookup : List (String × Meta)
deriving DecidableEq, Repr

/-- A containment / reference relationship record: `RelatingStructure`
(possibly `None`) and `RelatedElements`. -/
structure Rel where
  relating : Option Element
  related : List Element
deriving DecidableEq, Repr

/-- The slice of an opened IFC file that `build_room_index` consumes:
`by_type("IfcSpace")`, `by_type("IfcRelContainedInSpatialStructure")` and
`by_type("IfcRelReferencedInSpatialStructure")`, in enumeration order. -/
structure Model where
  spaces : List Element
  containedRels : List Rel
  referencedRels : List Rel
deriving DecidableEq, Repr

/-! ## Classifier -/

/-- `GA_CLASSES`, in the source's insertion order. -/
def GA_CLASSES : List (String × List String) :=
  [("lüftung", ["IfcDuctSegment", "IfcDuctFitting", "IfcFan", "IfcAirTerminal", "IfcDamper"]),
   ("heizen", ["IfcRadiator", "IfcBoiler", "IfcPipeSegment", "IfcHeatExchanger", "IfcBuildingElementProxy"]),
   ("kühlen", ["IfcChiller", "IfcCoolingTower", "IfcCoil", "IfcCovering"]),
   ("licht", ["IfcLightFixture", "IfcLamp"]),
   ("steuerung", ["IfcSensor", "IfcActuator", "IfcController", "IfcAlarm", "IfcUnitaryControlElement"])]

/-- `classify_ga`: first category whose class set holds the element's class. -/
def classify_ga (e : Element) : Option String :=
  (GA_CLASSES.find? (fun p => p.2.contains e.ifc_class)).map (fun p => p.1)

/-! ## Spatial index builder (`build_room_index`) -/

/-- The `meta` dict built for each element of a room's merged sequence. -/
def metaOf (e : Element) : Meta :=
  ⟨e.global_id, e.ifc_class, e.name, e.object_type, e.predefined_type⟩

/-- The `meta_ga` dict (meta plus `category` and `psets`). -/
def gaItemOf (e : Element) (cat : String) : GaItem :=
  ⟨e.global_id, e.ifc_class, e.name, e.object_type, e.predefined_type, cat, e.psets⟩

/-- `room_by_gid`: dict comprehension over the spaces that have a truthy
`GlobalId` (duplicate ids: last value wins, first position kept). -/
def roomByGid (spaces : List Element) : List (String × Element) :=
  spaces.foldl (fun acc r => if r.global_id = "" then acc else insertAssoc acc r.global_id r) []

/-- Does this relationship record hang off the space with id `rid`?
(`container and container.is_a("IfcSpace")`, then its `GlobalId`). -/
def isSpaceContainer (rel : Rel) (rid : String) : Bool :=
  match rel.relating with
  | some c => c.ifc_class = "IfcSpace" && c.global_id = rid
  | none => false

/-- The per-room candidate list a `defaultdict(list)` accumulates: related
elements of every matching relationship record, in record order. -/
def relElemsFor (rels : List Rel) (rid : String) : List Element :=
  (rels.filter (fun rel => isSpaceContainer rel rid)).flatMap (fun rel => rel.related)

/-- The dedup loop over `elems` with its `seen` set of non-empty GlobalIds. -/
def dedupGo (seen : List String) : List Element → List Element
  | [] => []
  | e :: rest =>
    if e.global_id ≠ "" ∧ seen.contains e.global_id then dedupGo seen rest
    else if e.global_id ≠ "" then e :: dedupGo (e.global_id :: seen) rest
    else e :: dedupGo seen rest

/-- `uniq`: containment + reference candidates, deduplicated by GlobalId
(first occurrence kept; empty ids never deduplicated). -/
def dedupByGid (l : List Element) : List Element := dedupGo [] l

/-- `elems = contained.get(rid, []) + referenced.get(rid, [])`. -/
def zoneElems (m : Model) (rid : String) : List Element :=
  relElemsFor m.containedRels rid ++ relElemsFor m.referencedRels rid

/-- The merged, deduplicated per-room sequence. -/
def zoneUniq (m : Model) (rid : String) : List Element :=
  dedupByGid (zoneElems m rid)

/-- The `ga_items` the per-element loop appends (classified elements only). -/
def zoneGaItems (uniq : List Element) : List GaItem :=
  uniq.filterMap (fun e => (classify_ga e).map (fun cat => gaItemOf e cat))

/-- The summaries the per-element loop writes into `global_lookup`
(elements with a truthy GlobalId only), in loop order. -/
def zoneMetas (uniq : List Element) : List Meta :=
  (uniq.filter (fun e => e.global_id ≠ "")).map metaOf

/-- The room record: `room_name` falls back to `Space_<rid>`. -/
def mkRoom (rid : String) (room : Element) (items : List GaItem) : Room :=
  ⟨rid, (if room.name = "" then "Space_" ++ rid else room.name), room.long_name, items⟩

/-- One `global_lookup` write: `index["global_lookup"][gid] = meta`. -/
def insMeta (gl : List (String × Meta)) (mt : Meta) : List (String × Meta) :=
  insertAssoc gl mt.global_id mt

/-- One iteration of the outer room loop.  The source's single per-element
loop both writes `global_lookup` and appends to `ga_items`; the two updates
are independent, so they are embedded as two folds over the same `uniq`. -/
def buildStep (m : Model) (idx : Index) (p : String × Element) : Index :=
  let uniq := zoneUniq m p.1
  { rooms := insertAssoc idx.rooms p.1 (mkRoom p.1 p.2 (zoneGaItems uniq)),
    global_lookup := (zoneMetas uniq).foldl insMeta idx.global_lookup }

/-- `build_room_index`. -/
def build_room_index (m : Model) : Index :=
  (roomByGid m.spaces).foldl (buildStep m) ⟨[], []⟩

/-- The sequence of summaries written to `global_lookup` during the whole
containment/reference walk, in write order. -/
def walkMetas (m : Model) : List Meta :=
  (roomByGid m.spaces).flatMap (fun p => zoneMetas (zoneUniq m p.1))

/-! ## `best_room_match` -/

/-- One candidate update of `best_room_match`'s inner loop:
`if cand and cand in q and len(cand) > best_len`. -/
def brmUpd (q rid cand : String) (best : Option String × Nat) : Option String × Nat :=
  if cand ≠ "" ∧ subStr cand q = true ∧ best.2 < cand.length then (some rid, cand.length)
  else best

/-- One room step of `best_room_match`'s loop: try the normalized name, then
the normalized long name (`for cand in (rn, rl)`). -/
def brmStep (q : String) (best : Option String × Nat) (p : String × Room) :
    Option String × Nat :=
  brmUpd q p.1 (normalize p.2.room_longname) (brmUpd q p.1 (normalize p.2.room_name) best)

/-- `best_room_match`. -/
def best_room_match (question : String) (index : Index) : Option String :=
  (index.rooms.foldl (brmStep (normalize question)) (none, 0)).1

/-- Score of one candidate name: its length if it is a non-empty substring of
the (normalized) question, else 0. -/
def candScore (q cand : String) : Nat :=
  if cand ≠ "" ∧ subStr cand q = true then cand.length else 0

/-- Score of a room: best score over its two candidate names. -/
def roomScore (q : String) (r : Room) : Nat :=
  max (candScore q (normalize r.room_name)) (candScore q (normalize r.room_longname))

/-! ## Geometry sampler (`plot_ifc_mesh_basic`) -/

/-- What the sampler needs of one element: whether `create_shape` succeeds. -/
structure GeomElem where
  extractOk : Bool
deriving DecidableEq, Repr

/-- The file as the sampler sees it: whether `ifcopenshell.geom` imported
(`IFC_GEOM_OK`) and `by_type` results per class name. -/
structure GeomModel where
  geomOk : Bool
  classTable : List (String × List GeomElem)
deriving DecidableEq, Repr

/-- `ifc.by_type(cls) or []` under its try/except. -/
def byType (m : GeomModel) (cls : String) : List GeomElem :=
  (lookupAssoc m.classTable cls).getD []

/-- `max_elems_per_class = 1200`. -/
def max_elems_per_class : Nat := 1200

/-- The elements one class iteration attempts: `elems[:max_elems_per_class]`. -/
def selectedOfClass (elems : List GeomElem) : List GeomElem :=
  elems.take max_elems_per_class

/-- Meshes successfully extracted for one class (failures skipped silently). -/
def renderedOfClass (elems : List GeomElem) : Nat :=
  (selectedOfClass elems).countP (fun e => e.extractOk)

/-- The default `classes` tuple. -/
def defaultClasses : List String :=
  ["IfcSpace", "IfcWall", "IfcSlab", "IfcDoor", "IfcWindow"]

/-- The annotation text added when `ifcopenshell.geom` is unavailable. -/
def geomUnavailableMsg : String :=
  "3D-Viewer ist in dieser Umgebung nicht verfügbar (ifcopenshell.geom fehlt)."

/-- The figure, reduced to what the claims are about: the diagnostic
annotations attached to it and the number of `Mesh3d` traces. -/
structure FigModel where
  notes : List String
  meshCount : Nat
deriving DecidableEq, Repr

/-- `plot_ifc_mesh_basic`: early return with an annotation when the geometry
backend is missing; otherwise one `Mesh3d` trace per successful extraction
among the first `max_elems_per_class` elements of each class, and no
annotation — in particular nothing is added when every extraction fails. -/
def plot_ifc_mesh_basic (m : GeomModel) (classes : List String) : FigModel :=
  if !m.geomOk then { notes := [geomUnavailableMsg], meshCount := 0 }
  else { notes := [], meshCount := (classes.map (fun c => renderedOfClass (byType m c))).sum }

/-- Modelled from the spec: "select `take` indices evenly spaced across the
candidate list (deterministic linear interpolation from first to last
index)" — the selection rule §4.5 step 3 claims, for comparison with the
code's `selectedOfClass`. -/
def evenSpacedIdxSpec (tk n : Nat) : List Nat :=
  (List.range tk).map (fun i => if tk ≤ 1 then 0 else (i * (n - 1)) / (tk - 1))

/-! ## Regex machinery

The query engine uses the patterns
`\b(id|globalid)\s+([0-9a-zA-Z_$]{6,})\b`,
`\bdetails\s+id\s+([0-9a-zA-Z_$]{6,})\b`,
`\bpsets\s+id\s+([0-9a-zA-Z_$]{6,})\b` (on the normalized question) and
`suche\s+"([^"]+)"` case-insensitively (on the raw question), always through
`re.search` (leftmost match) and reading only the id / needle group.  They are
embedded as scanners over `List Char`: positions are tried left to right;
alternatives in source order; `\s+` takes the maximal whitespace run (what
follows is never whitespace-matchable, so no backtracking is needed there);
the greedy `{6,}` id group takes the maximal `[0-9a-zA-Z_$]` run and
backtracks one character at a time until the trailing `\b` holds. -/

/-- Match a literal keyword at the current position. -/
def matchLit (kw cs : List Char) : Option (List Char) :=
  if listHasPre kw cs then some (cs.drop kw.length) else none

/-- Match `\s+` at the current position. -/
def wsPlus (cs : List Char) : Option (List Char) :=
  if (cs.takeWhile (fun c => c.isWhitespace)).isEmpty then none
  else some (cs.dropWhile (fun c => c.isWhitespace))

/-- Word-ness of the character following the capture (`none` = end of input). -/
def headIsWord : List Char → Bool
  | [] => false
  | c :: _ => isWordCharB c

/-- Backtracking for the greedy `([0-9a-zA-Z_$]{6,})\b` group.  The current
candidate capture is kept REVERSED (`revRun`), so that dropping its last
character is structural recursion; `rest` is what follows the capture.
Shrink until the trailing word boundary holds or the capture would get
shorter than 6. -/
def captureGo : List Char → List Char → Option (List Char)
  | [], _ => none
  | lastc :: revInit, rest =>
    if (lastc :: revInit).length < 6 then none
    else if isWordCharB lastc ≠ headIsWord rest then some (lastc :: revInit).reverse
    else captureGo revInit (lastc :: rest)

/-- Match the id group `([0-9a-zA-Z_$]{6,})\b` at the current position. -/
def captureId (cs : List Char) : Option (List Char) :=
  captureGo (cs.takeWhile idCharP).reverse (cs.dropWhile idCharP)

/-- Match `kw₁\s+kw₂\s+…\s+([0-9a-zA-Z_$]{6,})\b` at the current position. -/
def matchSeq : List (List Char) → List Char → Option (List Char)
  | [], cs => captureId cs
  | kw :: rest, cs =>
    match matchLit kw cs with
    | none => none
    | some cs1 =>
      match wsPlus cs1 with
      | none => none
      | some cs2 => matchSeq rest cs2

/-- Try each `|`-alternative in source order at the current position. -/
def tryAlts (alts : List (List (List Char))) (cs : List Char) : Option (List Char) :=
  match alts with
  | [] => none
  | alt :: rest =>
    match matchSeq alt cs with
    | some r => some r
    | none => tryAlts rest cs

/-- Is the previous character a word character (leading `\b` test)? -/
def prevIsWord : Option Char → Bool
  | none => false
  | some c => isWordCharB c

/-- `re.search`: scan positions left to right; at each position the leading
`\b` requires the previous character to be a non-word character. -/
def searchGo (alts : List (List (List Char))) (prev : Option Char) :
    List Char → Option (List Char)
  | [] => none
  | c :: rest =>
    match (if prevIsWord prev then none else tryAlts alts (c :: rest)) with
    | some r => some r
    | none => searchGo alts (some c) rest

/-- Leftmost match of `\b(kw-alternatives …)\s+([0-9a-zA-Z_$]{6,})\b`. -/
def searchCap (alts : List (List (List Char))) (s : String) : Option (List Char) :=
  searchGo alts none s.data

/-- Alternatives of the rule-4 pattern `\b(id|globalid)\s+…`. -/
def alts4 : List (List (List Char)) := [["id".data], ["globalid".data]]

/-- The rule-5 pattern `\bdetails\s+id\s+…`. -/
def alts5 : List (List (List Char)) := [["details".data, "id".data]]

/-- The rule-6 pattern `\bpsets\s+id\s+…`. -/
def alts6 : List (List (List Char)) := [["psets".data, "id".data]]

/-- Case-insensitive literal match (`re.IGNORECASE`). -/
def matchLitCI : List Char → List Char → Option (List Char)
  | [], cs => some cs
  | _ :: _, [] => none
  | k :: ks, c :: cs => if c.toLower = k.toLower then matchLitCI ks cs else none

/-- Match `suche\s+"([^"]+)"` at the current position ([^"]+ is greedy; a
shorter capture can never make the closing quote match, so no backtracking). -/
def sucheHere (cs : List Char) : Option (List Char) :=
  match matchLitCI "suche".data cs with
  | none => none
  | some cs1 =>
    match wsPlus cs1 with
    | none => none
    | some cs2 =>
      match cs2 with
      | '"' :: cs3 =>
        let run := cs3.takeWhile (fun c => c ≠ '"')
        if run.isEmpty then none
        else
          match cs3.dropWhile (fun c => c ≠ '"') with
          | '"' :: _ => some run
          | _ => none
      | _ => none

/-- Leftmost match of `suche\s+"([^"]+)"` (no leading `\b` in this pattern). -/
def sucheSearch : List Char → Option (List Char)
  | [] => none
  | c :: rest =>
    match sucheHere (c :: rest) with
    | some r => some r
    | none => sucheSearch rest

/-! ## Query engine (`answer`)

Each rule of the ordered cascade is a definition that either produces the
rule's response or delegates to the next rule, mirroring the source's
sequence of early returns. -/

/-- `format_ga_items`. -/
def gaItemLine (it : GaItem) : String :=
  "- [" ++ it.category ++ "] " ++ it.ifc_class ++ " | " ++ it.name ++ " | " ++ it.global_id

/-- One pset sample line of `format_ga_items` (first 8 properties). -/
def psetSampleLine (ps : String × List (String × String)) : String :=
  "  - " ++ ps.1 ++ ": " ++ String.intercalate ", " ((ps.2.take 8).map (fun kv => kv.1 ++ "=" ++ kv.2))

def format_ga_items (items : List GaItem) (show_psets : Bool) : String :=
  if items.isEmpty then "Keine GA-relevanten Objekte erkannt."
  else
    String.intercalate "\n" (items.flatMap (fun it =>
      gaItemLine it ::
        (if show_psets then (it.psets.filter (fun ps => !ps.2.isEmpty)).map psetSampleLine
         else [])))

/-- The help text of rule 1. -/
def helpMsg : String :=
  "**Mögliche Abfragen:**\n- `liste räume`\n- `ga übersicht` / `ga in jedem raum`\n- `ga in raum <name>`\n- `lüftung|heizen|kühlen|licht|steuerung in raum <name>`\n- `suche \"text\"`\n- `id <GlobalId>` / `details id <GlobalId>` / `psets id <GlobalId>`\n"

/-- `sorted(rooms, key=lambda x: normalize(x.get("room_name", "")))` —
Python's stable sort by the normalized room name (`<` on code points). -/
def sortRoomsByName (rooms : List Room) : List Room :=
  rooms.mergeSort (fun a b => !(pyStrLt (normalize b.room_name) (normalize a.room_name)))

/-- `sorted(rooms.items(), key=…)` for rule 3. -/
def sortPairsByName (l : List (String × Room)) : List (String × Room) :=
  l.mergeSort (fun a b => !(pyStrLt (normalize b.2.room_name) (normalize a.2.room_name)))

/-- `sorted(counts.keys())`. -/
def sortStrings (l : List String) : List String :=
  l.mergeSort (fun a b => !(pyStrLt b a))

/-- The category keys of `counts`, in first-occurrence order. -/
def catKeysOf (items : List GaItem) : List String :=
  items.foldl (fun acc it => if acc.contains it.category then acc else acc ++ [it.category]) []

/-- The `parts` string of one rule-3 line. -/
def catCountsParts (items : List GaItem) : String :=
  let keys := catKeysOf items
  if keys.isEmpty then "keine GA-Objekte erkannt"
  else
    String.intercalate ", "
      ((sortStrings keys).map (fun k => k ++ "=" ++ toString (items.countP (fun it => it.category = k))))

/-- The rule-4 "element found" block. -/
def elementFoundMsg (hit : Meta) (gid : String) : String :=
  "**Element gefunden:**\n- Klasse: " ++ hit.ifc_class ++ "\n- Name: " ++ hit.name ++
    "\n- ObjectType: " ++ hit.object_type ++ "\n- PredefinedType: " ++ hit.predefined_type ++
    "\n- GlobalId: " ++ gid ++ "\n"

/-- The rule-5 "details" block. -/
def detailsMsg (r : Room) (it : GaItem) (gid : String) : String :=
  "**Details (GA) – " ++ gid ++ ":**\n- Raum: " ++ r.room_name ++ "\n- Kategorie: " ++ it.category ++
    "\n- IFC-Klasse: " ++ it.ifc_class ++ "\n- Name: " ++ it.name ++ "\n- ObjectType: " ++
    it.object_type ++ "\n- PredefinedType: " ++ it.predefined_type ++ "\n"

/-- The nested rule-5/6 scan over every room's `ga_items`, first hit wins. -/
def findGaItem (index : Index) (gid : String) : Option (Room × GaItem) :=
  index.rooms.findSome? (fun p =>
    (p.2.ga_items.find? (fun it => it.global_id = gid)).map (fun it => (p.2, it)))

/-- The rule-6 pset listing (first 30 properties per group). -/
def psetsMsg (it : GaItem) (gid : String) : String :=
  if it.psets.isEmpty then "Für `" ++ gid ++ "` wurden keine PropertySets gefunden."
  else
    String.intercalate "\n"
      (("**PropertySets – " ++ gid ++ ":**") ::
        it.psets.flatMap (fun ps =>
          ("- " ++ ps.1) :: (ps.2.take 30).map (fun kv => "  - " ++ kv.1 ++ ": " ++ kv.2)))

/-- The hay of one rule-7 search hit. -/
def hayOf (it : GaItem) : String :=
  String.intercalate " "
    [normalize it.name, normalize it.object_type, normalize it.predefined_type, normalize it.ifc_class]

/-- Rule 7's hits, in room/item enumeration order. -/
def searchHits (index : Index) (needle : String) : List (String × GaItem) :=
  index.rooms.flatMap (fun p =>
    (p.2.ga_items.filter (fun it => subStr needle (hayOf it))).map (fun it => (p.2.room_name, it)))

/-- One rule-7 hit line. -/
def hitLine (p : String × GaItem) : String :=
  "- Raum: " ++ p.1 ++ " | [" ++ p.2.category ++ "] " ++ p.2.ifc_class ++ " | " ++ p.2.name ++
    " | " ++ p.2.global_id

/-- The room-ambiguity guidance of rules 8/9. -/
def roomUnclearMsg : String :=
  "Der Raum konnte nicht eindeutig erkannt werden. Bitte exakten Raumnamen verwenden oder `liste räume`."

/-- The final fallback of rule 10. -/
def fallbackMsg : String :=
  "Ich kann die Frage noch nicht eindeutig zuordnen.\nNutzen Sie `hilfe` für Beispiele."

/-- The category loop of rule 8. -/
def catList : List String := ["lüftung", "heizen", "kühlen", "licht", "steuerung"]

/-- Rule 9: `"ga" in q and "raum" in q`. -/
def rule9 (q : String) (index : Index) : Except Unit String :=
  if subStr "ga" q = true ∧ subStr "raum" q = true then
    match best_room_match q index with
    | none => .ok roomUnclearMsg
    | some rid =>
      match lookupAssoc index.rooms rid with
      | none => .error ()
      | some r =>
        .ok ("**GA-relevante Objekte – Raum „" ++ r.room_name ++ "“:**\n" ++
          format_ga_items r.ga_items false)
  else .ok fallbackMsg

/-- Rule 8: for each category token, `cat in q and "raum" in q`. -/
def rule8 (q : String) (index : Index) : Except Unit String :=
  match catList.find? (fun cat => subStr cat q && subStr "raum" q) with
  | some cat =>
    match best_room_match q index with
    | none => .ok roomUnclearMsg
    | some rid =>
      match lookupAssoc index.rooms rid with
      | none => .error ()
      | some r =>
        .ok ("**" ++ capitalizeStr cat ++ " – Raum „" ++ r.room_name ++ "“:**\n" ++
          format_ga_items (r.ga_items.filter (fun it => it.category = cat)) false)
  | none => rule9 q index

/-- Rule 7: `suche "<text>"` on the raw (non-normalized) question. -/
def rule7 (q question : String) (index : Index) : Except Unit String :=
  match sucheSearch question.data with
  | some run =>
    let needle_raw := String.mk run
    let needle := normalize needle_raw
    if needle = "" then .ok "Bitte einen Suchbegriff angeben, z. B. `suche \"VAV\"`."
    else
      let hits := searchHits index needle
      if hits.isEmpty then .ok ("Keine Treffer für „" ++ needle_raw ++ "“ gefunden.")
      else
        .ok (String.intercalate "\n"
          (("**Treffer für „" ++ needle_raw ++ "“:**") :: (hits.take 60).map hitLine))
  | none => rule8 q index

/-- Rule 6: `psets id <id>`. -/
def rule6 (q question : String) (index : Index) : Except Unit String :=
  match searchCap alts6 q with
  | some gc =>
    let gid := String.mk gc
    match findGaItem index gid with
    | some p => .ok (psetsMsg p.2 gid)
    | none => .ok ("Keine PropertySets zu `" ++ gid ++ "` gefunden.")
  | none => rule7 q question index

/-- Rule 5: `details id <id>`. -/
def rule5 (q question : String) (index : Index) : Except Unit String :=
  match searchCap alts5 q with
  | some gc =>
    let gid := String.mk gc
    match findGaItem index gid with
    | some p => .ok (detailsMsg p.1 p.2 gid)
    | none => .ok ("Keine GA-Details zu `" ++ gid ++ "` gefunden.")
  | none => rule6 q question index

/-- Rule 4: `(id|globalid) <id>` when the question mentions neither
"details" nor "psets". -/
def rule4 (q question : String) (index : Index) : Except Unit String :=
  match searchCap alts4 q, subStr "details" q || subStr "psets" q with
  | some gc, false =>
    let gid := String.mk gc
    .ok (match lookupAssoc index.global_lookup gid with
         | none => "Kein Element mit GlobalId `" ++ gid ++ "` gefunden."
         | some hit => elementFoundMsg hit gid)
  | _, _ => rule5 q question index

/-- Rule 3: the per-room category overview. -/
def rule3 (q question : String) (index : Index) : Except Unit String :=
  if subStr "ga übersicht" q = true ∨ subStr "ga in jedem raum" q = true ∨
      subStr "in jedem raum" q = true then
    .ok (if index.rooms.isEmpty then "Es wurden keine Räume erkannt."
         else
           String.intercalate "\n"
             ("**GA-Übersicht je Raum (Anzahl pro Kategorie):**" ::
               (sortPairsByName index.rooms).map (fun p =>
                 "- " ++ p.2.room_name ++ " : " ++ catCountsParts p.2.ga_items)))
  else rule4 q question index

/-- Rule 2: list the rooms. -/
def rule2 (q question : String) (index : Index) : Except Unit String :=
  if subStr "liste räume" q = true ∨ subStr "räume auflisten" q = true then
    .ok (if index.rooms.isEmpty then "Es wurden keine IfcSpace-Objekte (Räume) erkannt."
         else
           String.intercalate "\n"
             ("**Erkannte Räume:**" ::
               (sortRoomsByName (index.rooms.map (fun p => p.2))).map (fun r =>
                 "- " ++ r.room_name ++ " (" ++ r.room_id ++ ")")))
  else rule3 q question index

/-- The rule cascade on the already-normalized question `q` (rule 7 needs the
raw `question` as well). -/
def answerCore (q question : String) (index : Index) : Except Unit String :=
  if q = "hilfe" ∨ q = "help" ∨ q = "?" then .ok helpMsg else rule2 q question index

/-- `answer`: the Python function raises `KeyError` exactly where this
returns `.error ()`. -/
def answer (question : String) (index : Index) : Except Unit String :=
  answerCore (normalize question) question index

/-! ## Concrete instances used by witnesses and counterexamples -/

/-- A class whose 1201 candidates would all fail extraction except the last. -/
def exC2 : List GeomElem := List.replicate 1200 ⟨false⟩ ++ [⟨true⟩]

/-- Geometry backend available, one wall whose extraction fails. -/
def exC3 : GeomModel := ⟨true, [("IfcWall", [⟨false⟩])]⟩

/-- Two distinct elements sharing one GlobalId, under two different rooms. -/
def cexElemA : Element := ⟨"elem0001", "IfcFan", "first", "", "", "", []⟩

def cexElemB : Element := ⟨"elem0001", "IfcFan", "second", "", "", "", []⟩

def cexSpaceA : Element := ⟨"spaceaaa1", "IfcSpace", "Room A", "", "", "", []⟩

def cexSpaceB : Element := ⟨"spacebbb2", "IfcSpace", "Room B", "", "", "", []⟩

def cexModelC1 : Model :=
  ⟨[cexSpaceA, cexSpaceB],
   [⟨some cexSpaceA, [cexElemA]⟩, ⟨some cexSpaceB, [cexElemB]⟩], []⟩

/-- A ventilation element reaching its room via containment and reference. -/
def wElem : Element := ⟨"elemw001", "IfcFan", "Fan 1", "", "", "", []⟩

/-- Rooms "Office 1.01" and "Office 1" for the longest-substring tie. -/
def officeIndex : Index :=
  ⟨[("r101", ⟨"r101", "Office 1.01", "", []⟩), ("r1", ⟨"r1", "Office 1", "", []⟩)], []⟩

/-- A model with no IfcSpace at all (relationships may still exist). -/
def emptyModel : Model := ⟨[], [⟨none, [wElem]⟩], []⟩

/-- An unclassified element whose GlobalId has upper-case letters. -/
def cexMetaC6 : Meta := ⟨"ABCDEF", "IfcBeam", "Beam 7", "", ""⟩

def cexIdxC6 : Index := ⟨[], [("ABCDEF", cexMetaC6)]⟩

/-- An unclassified element with a lower-case GlobalId. -/
def witMetaC6 : Meta := ⟨"abcdef", "IfcBeam", "Beam 7", "", ""⟩

def witIdxC6 : Index := ⟨[], [("abcdef", witMetaC6)]⟩

/-- Two summaries whose GlobalIds differ only by case. -/
def cexMetaC9a : Meta := ⟨"ABCDEF", "IfcBeam", "upper", "", ""⟩

def cexMetaC9b : Meta := ⟨"abcdef", "IfcColumn", "lower", "", ""⟩

def cexIdxC9 : Index := ⟨[], [("ABCDEF", cexMetaC9a), ("abcdef", cexMetaC9b)]⟩

/-- A summary stored under an upper-case GlobalId only. -/
def witIdxC9 : Index := ⟨[], [("ABCDEF", cexMetaC9a)]⟩

/-- Lower-case id characters (digits, lower-case ASCII letters, underscore):
identifiers made of these survive the question's case-folding unchanged and
sit strictly inside the regex character classes of the id patterns.  Used to
state the hypotheses of the identifier-query claims. -/
def plainIdChar (c : Char) : Bool := c.isDigit || c.isLower || c = '_'

/-- Id characters of either case (digits, ASCII letters, underscore). -/
def upperIdChar (c : Char) : Bool := c.isDigit || c.isLower || c.isUpper || c = '_'


/-! ## Lemmas: association lists -/

lemma optOr_none {α : Type} (x : Option α) : optOr x none = x := by
  cases x <;> rfl

lemma lookupAssoc_append {α : Type} (l1 l2 : List (String × α)) (g : String) :
    lookupAssoc (l1 ++ l2) g = optOr (lookupAssoc l1 g) (lookupAssoc l2 g) := by
  induction l1 with
  | nil => simp [lookupAssoc, optOr]
  | cons p rest ih =>
    by_cases hp : p.1 = g <;> simp [lookupAssoc, hp, ih, optOr]

lemma lookupAssoc_map_overwrite_ne {α : Type} (l : List (String × α)) (k g : String) (v : α)
    (hne : ¬ g = k) :
    lookupAssoc (l.map (fun p => if p.1 = k then (k, v) else p)) g = lookupAssoc l g := by
  induction l with
  | nil => rfl
  | cons p rest ih =>
    by_cases hp : p.1 = k
    · have hkg : ¬ (k = g) := fun hh => hne hh.symm
      have hpg : ¬ (p.1 = g) := by
        intro hh
        exact hkg (hp.symm.trans hh)
      simp only [List.map_cons, hp, if_pos, lookupAssoc, hkg, hpg, if_neg, not_false_iff]
      exact ih
    · simp only [List.map_cons, hp, if_neg, not_false_iff, lookupAssoc]
      by_cases hpg : p.1 = g
      · simp [hpg]
      · simp [hpg, ih]

lemma lookupAssoc_map_overwrite_eq {α : Type} (l : List (String × α)) (k : String) (v : α)
    (hany : l.any (fun p => p.1 = k) = true) :
    lookupAssoc (l.map (fun p => if p.1 = k then (k, v) else p)) k = some v := by
  induction l with
  | nil => simp at hany
  | cons p rest ih =>
    by_cases hp : p.1 = k
    · simp only [List.map_cons, hp, if_pos, lookupAssoc, if_pos rfl]
    · have hr : rest.any (fun p => p.1 = k) = true := by
        rw [List.any_cons] at hany
        simpa [hp] using hany
      simp only [List.map_cons, hp, if_neg, not_false_iff, lookupAssoc, ih hr, if_neg hp]

lemma lookupAssoc_not_found {α : Type} (l : List (String × α)) (g : String)
    (h : l.any (fun p => p.1 = g) = false) : lookupAssoc l g = none := by
  induction l with
  | nil => rfl
  | cons p rest ih =>
    by_cases hp : p.1 = g
    · rw [List.any_cons] at h
      simp [hp] at h
    · rw [List.any_cons] at h
      simp only [hp, decide_eq_true_eq] at h
      have h2 : rest.any (fun p => p.1 = g) = false := by
        simpa [hp] using h
      simp [lookupAssoc, hp, ih h2]

lemma lookupAssoc_insertAssoc {α : Type} (l : List (String × α)) (k g : String) (v : α) :
    lookupAssoc (insertAssoc l k v) g = if g = k then some v else lookupAssoc l g := by
  by_cases hany : l.any (fun p => p.1 = k) = true
  · rw [insertAssoc, if_pos hany]
    by_cases hg : g = k
    · rw [if_pos hg, hg, lookupAssoc_map_overwrite_eq l k v hany]
    · rw [if_neg hg, lookupAssoc_map_overwrite_ne l k g v hg]
  · have hfalse : l.any (fun p => p.1 = k) = false := by
      cases hb : l.any (fun p => p.1 = k) with
      | false => rfl
      | true => exact absurd hb hany
    rw [insertAssoc, if_neg hany, lookupAssoc_append]
    by_cases hg : g = k
    · subst hg
      rw [lookupAssoc_not_found l g hfalse]
      simp [lookupAssoc, optOr]
    · have hkg : ¬ (k = g) := fun hh => hg hh.symm
      rw [if_neg hg]
      simp only [lookupAssoc, hkg, if_neg, not_false_iff]
      exact optOr_none _

lemma assocKeys_insertAssoc {α : Type} (l : List (String × α)) (k : String) (v : α) :
    assocKeys (insertAssoc l k v) =
      if l.any (fun p => p.1 = k) then assocKeys l else assocKeys l ++ [k] := by
  by_cases h : l.any (fun p => p.1 = k) = true
  · simp only [insertAssoc, h, if_pos, assocKeys, List.map_map]
    congr 1
    funext p
    by_cases hp : p.1 = k <;> simp [hp, Function.comp]
  · simp [insertAssoc, h, assocKeys]

lemma nodup_assocKeys_insertAssoc {α : Type} (l : List (String × α)) (k : String) (v : α)
    (h : (assocKeys l).Nodup) : (assocKeys (insertAssoc l k v)).Nodup := by
  rw [assocKeys_insertAssoc]
  by_cases hany : l.any (fun p => p.1 = k) = true
  · simpa [hany] using h
  · have hnot : k ∉ assocKeys l := by
      intro hk
      simp only [assocKeys, List.mem_map] at hk
      obtain ⟨p, hp, hpk⟩ := hk
      have : l.any (fun p => p.1 = k) = true := by
        rw [List.any_eq_true]
        exact ⟨p, hp, by simp [hpk]⟩
      exact hany this
    simp only [hany, Bool.false_eq_true, if_neg, not_false_iff, if_false]
    simp only [List.nodup_append, List.nodup_singleton, true_and]
    refine ⟨h, ?_⟩
    intro a ha hb
    simp only [List.mem_singleton] at hb
    exact hnot (hb ▸ ha)

lemma lookupAssoc_isSome_of_mem {α : Type} (l : List (String × α)) (k : String) (v : α)
    (h : (k, v) ∈ l) : (lookupAssoc l k).isSome = true := by
  induction l with
  | nil => cases h
  | cons p rest ih =>
    rcases List.mem_cons.mp h with h1 | h2
    · simp [lookupAssoc, ← h1]
    · by_cases hp : p.1 = k
      · simp [lookupAssoc, hp]
      · simp [lookupAssoc, hp, ih h2]

/-! ## Lemmas: `global_lookup` accumulation (claim C1) -/

lemma foldl_insMeta_lookup (g : String) (l : List Meta) :
    ∀ acc : List (String × Meta),
      lookupAssoc (l.foldl insMeta acc) g =
        optOr ((l.filter (fun mt => mt.global_id = g)).getLast?) (lookupAssoc acc g) := by
  induction l using List.reverseRecOn with
  | nil => intro acc; simp [optOr]
  | append_singleton init mt ih =>
    intro acc
    rw [List.foldl_append, List.foldl_cons, List.foldl_nil, insMeta,
      lookupAssoc_insertAssoc, List.filter_append]
    by_cases h : mt.global_id = g
    · have hfilter : List.filter (fun mt => decide (mt.global_id = g)) [mt] = [mt] := by
        simp [h]
      rw [hfilter, List.getLast?_concat]
      simp [h, optOr]
    · have hfilter : List.filter (fun mt => decide (mt.global_id = g)) [mt] = [] := by
        simp [h]
      have hgm : ¬ (g = mt.global_id) := fun hh => h hh.symm
      rw [hfilter, List.append_nil, if_neg hgm]
      exact ih acc

lemma foldl_insMeta_nodup (l : List Meta) :
    ∀ acc : List (String × Meta),
      (assocKeys acc).Nodup → (assocKeys (l.foldl insMeta acc)).Nodup := by
  induction l with
  | nil => intro acc h; simpa using h
  | cons mt rest ih =>
    intro acc h
    exact ih _ (nodup_assocKeys_insertAssoc _ _ _ h)

lemma build_gl_foldl (m : Model) :
    ∀ (rbg : List (String × Element)) (idx0 : Index),
      (rbg.foldl (buildStep m) idx0).global_lookup =
        (rbg.flatMap (fun p => zoneMetas (zoneUniq m p.1))).foldl insMeta idx0.global_lookup := by
  intro rbg
  induction rbg with
  | nil => intro idx0; simp
  | cons p rest ih =>
    intro idx0
    rw [List.foldl_cons, ih, List.flatMap_cons, List.foldl_append]
    rfl

lemma build_global_lookup (m : Model) :
    (build_room_index m).global_lookup = (walkMetas m).foldl insMeta [] := by
  rw [build_room_index, build_gl_foldl, walkMetas]

/-! ## Lemmas: per-zone deduplication (claim C7) -/

lemma dedupGo_cons_skip (seen : List String) (e : Element) (rest : List Element)
    (h1 : e.global_id ≠ "") (h2 : seen.contains e.global_id = true) :
    dedupGo seen (e :: rest) = dedupGo seen rest := by
  have hc : e.global_id ≠ "" ∧ seen.contains e.global_id = true := ⟨h1, h2⟩
  simp only [dedupGo, if_pos hc]

lemma dedupGo_cons_keep (seen : List String) (e : Element) (rest : List Element)
    (h1 : e.global_id ≠ "") (h2 : seen.contains e.global_id = false) :
    dedupGo seen (e :: rest) = e :: dedupGo (e.global_id :: seen) rest := by
  have hc : ¬ (e.global_id ≠ "" ∧ seen.contains e.global_id = true) := by
    intro hcc
    rw [h2] at hcc
    exact absurd hcc.2 (by simp)
  simp only [dedupGo, if_neg hc, if_pos h1]

lemma dedupGo_cons_empty (seen : List String) (e : Element) (rest : List Element)
    (h1 : e.global_id = "") :
    dedupGo seen (e :: rest) = e :: dedupGo seen rest := by
  have hne : ¬ (e.global_id ≠ "") := by simp [h1]
  have hc1 : ¬ (e.global_id ≠ "" ∧ seen.contains e.global_id = true) := fun hcc => hne hcc.1
  simp only [dedupGo, if_neg hc1, if_neg hne]

lemma contains_eq_true_of_mem (seen : List String) (g : String) (h : g ∈ seen) :
    seen.contains g = true :=
  List.contains_iff_exists_mem_beq.mpr ⟨g, h, by simp⟩

lemma mem_of_contains_eq_true (seen : List String) (g : String) (h : seen.contains g = true) :
    g ∈ seen := by
  rcases List.contains_iff_exists_mem_beq.mp h with ⟨a, ha, hb⟩
  have hg : g = a := by simpa using hb
  rwa [hg]

lemma dedupGo_filter_of_ne (g : String) (hg : g ≠ "") :
    ∀ (l : List Element) (seen : List String),
      (g ∈ seen → (dedupGo seen l).filter (fun e => e.global_id = g) = [])
      ∧ (g ∉ seen → (dedupGo seen l).filter (fun e => e.global_id = g)
          = (l.filter (fun e => e.global_id = g)).take 1) := by
  intro l
  induction l with
  | nil => intro seen; simp [dedupGo]
  | cons e rest ih =>
    intro seen
    by_cases hgid : e.global_id = g
    · have hne : e.global_id ≠ "" := by rw [hgid]; exact hg
      have hcT : decide (e.global_id = g) = true := by simp [hgid]
      constructor
      · intro hseen
        rw [dedupGo_cons_skip seen e rest hne
          (by rw [hgid]; exact contains_eq_true_of_mem seen g hseen)]
        exact (ih seen).1 hseen
      · intro hseen
        have hcf : seen.contains e.global_id = false := by
          rw [hgid]
          cases hb : seen.contains g with
          | false => rfl
          | true => exact absurd (mem_of_contains_eq_true seen g hb) hseen
        rw [dedupGo_cons_keep seen e rest hne hcf, List.filter_cons, List.filter_cons,
          if_pos hcT, if_pos hcT]
        have hmem : g ∈ e.global_id :: seen := by
          rw [hgid]
          exact List.mem_cons_self g seen
        rw [(ih (e.global_id :: seen)).1 hmem]
        simp [List.take]
    · have hcF : ¬ (decide (e.global_id = g) = true) := by simp [hgid]
      by_cases h2 : e.global_id = ""
      · constructor
        · intro hseen
          rw [dedupGo_cons_empty seen e rest h2, List.filter_cons, if_neg hcF]
          exact (ih seen).1 hseen
        · intro hseen
          rw [dedupGo_cons_empty seen e rest h2, List.filter_cons, List.filter_cons,
            if_neg hcF, if_neg hcF]
          exact (ih seen).2 hseen
      · by_cases h3 : seen.contains e.global_id = true
        · constructor
          · intro hseen
            rw [dedupGo_cons_skip seen e rest h2 h3]
            exact (ih seen).1 hseen
          · intro hseen
            rw [dedupGo_cons_skip seen e rest h2 h3, List.filter_cons, if_neg hcF]
            exact (ih seen).2 hseen
        · have h3f : seen.contains e.global_id = false := by
            cases hb : seen.contains e.global_id with
            | false => rfl
            | true => exact absurd hb h3
          constructor
          · intro hseen
            rw [dedupGo_cons_keep seen e rest h2 h3f, List.filter_cons, if_neg hcF]
            exact (ih (e.global_id :: seen)).1 (List.mem_cons_of_mem _ hseen)
          · intro hseen
            rw [dedupGo_cons_keep seen e rest h2 h3f, List.filter_cons, List.filter_cons,
              if_neg hcF, if_neg hcF]
            have hseen2 : g ∉ e.global_id :: seen := by
              intro hmem
              rcases List.mem_cons.mp hmem with hh | hh
              · exact hgid hh.symm
              · exact hseen hh
            exact (ih (e.global_id :: seen)).2 hseen2

lemma dedupGo_filter_empty :
    ∀ (l : List Element) (seen : List String),
      (dedupGo seen l).filter (fun e => e.global_id = "")
        = l.filter (fun e => e.global_id = "") := by
  intro l
  induction l with
  | nil => intro seen; simp [dedupGo]
  | cons e rest ih =>
    intro seen
    by_cases h2 : e.global_id = ""
    · have hcT : decide (e.global_id = "") = true := by simp [h2]
      rw [dedupGo_cons_empty seen e rest h2, List.filter_cons, List.filter_cons,
        if_pos hcT, if_pos hcT, ih seen]
    · have hcF : ¬ (decide (e.global_id = "") = true) := by simp [h2]
      by_cases h3 : seen.contains e.global_id = true
      · rw [dedupGo_cons_skip seen e rest h2 h3, List.filter_cons, if_neg hcF]
        exact ih seen
      · have h3f : seen.contains e.global_id = false := by
          cases hb : seen.contains e.global_id with
          | false => rfl
          | true => exact absurd hb h3
        rw [dedupGo_cons_keep seen e rest h2 h3f, List.filter_cons, List.filter_cons,
          if_neg hcF, if_neg hcF]
        exact ih _

/-! ## Claim C1 -/

/-- C1 (counterexample): two distinct elements share GlobalId "elem0001" under
two different rooms; the walk meets the first room's element first, yet
`global_lookup` stores the summary of the SECOND (last) occurrence, so
"the summary stored in globalLookup is the one from the first occurrence;
later occurrences do not overwrite it" is false on the code. -/
theorem c1_first_write_cex :
    walkMetas cexModelC1 = [metaOf cexElemA, metaOf cexElemB]
    ∧ lookupAssoc (build_room_index cexModelC1).global_lookup "elem0001" = some (metaOf cexElemB)
    ∧ metaOf cexElemB ≠ metaOf cexElemA := by
  refine ⟨rfl, rfl, ?_⟩
  decide

/-- C1 (amended): each identifier is a key of `global_lookup` at most once
(keys are nodup), and the stored summary is the one from the LAST write of
the containment/reference walk (within one zone duplicates are dropped
before writing, but across zones a later zone's write overwrites). -/
theorem c1_global_lookup_last_write_wins (m : Model) (g : String) :
    (assocKeys (build_room_index m).global_lookup).Nodup
    ∧ lookupAssoc (build_room_index m).global_lookup g
        = ((walkMetas m).filter (fun mt => mt.global_id = g)).getLast? := by
  constructor
  · rw [build_global_lookup]
    exact foldl_insMeta_nodup _ _ (by simp [assocKeys])
  · rw [build_global_lookup, foldl_insMeta_lookup]
    rw [show lookupAssoc ([] : List (String × Meta)) g = none from rfl, optOr_none]

/-! ## Claim C2 -/

/-- C2 (counterexample): for a class with 1201 candidates of which only the
LAST is extractable, the spec's evenly-spaced selection of
`take = min(per_class_cap, count) = 1200` indices includes index 1200 (the
last candidate), but the code samples `elems[:1200]` — a leading window —
so it renders nothing; the selection is a prefix of the candidate list, not
an even spread, and the claim is false on the code. -/
theorem c2_even_spacing_cex :
    exC2.length = 1201
    ∧ (1200 : Nat) ∈ evenSpacedIdxSpec 1200 1201
    ∧ exC2.get? 1200 = some ⟨true⟩
    ∧ selectedOfClass exC2 = List.replicate 1200 ⟨false⟩
    ∧ renderedOfClass exC2 = 0 := by
  have hlen : (List.replicate 1200 (⟨false⟩ : GeomElem)).length = 1200 :=
    List.length_replicate 1200 _
  have hsel : selectedOfClass exC2 = List.replicate 1200 ⟨false⟩ := by
    rw [selectedOfClass, exC2, max_elems_per_class]
    exact List.take_left' hlen
  refine ⟨?_, ?_, ?_, hsel, ?_⟩
  · rw [exC2, List.length_append, hlen]
    rfl
  · rw [evenSpacedIdxSpec]
    rw [List.mem_map]
    refine ⟨1199, List.mem_range.mpr (by omega), ?_⟩
    rw [if_neg (by omega)]
  · rw [exC2, List.get?_append_right (le_of_eq hlen)]
    rw [hlen]
    rfl
  · rw [renderedOfClass, hsel, List.countP_eq_zero]
    intro a ha
    rw [List.eq_of_mem_replicate ha]
    decide

/-- C2 (amended): within one class the sampler attempts extraction for
exactly the first `min(per_class_cap, candidate_count)` candidates — a
leading window of the candidate list, with no even spacing and no cross-type
total budget — and consequently no class ever contributes more than
`max_elems_per_class` rendered meshes. -/
theorem c2_leading_window_selection (elems : List GeomElem) :
    (selectedOfClass elems).length = min max_elems_per_class elems.length
    ∧ (∀ i, i < (selectedOfClass elems).length →
        (selectedOfClass elems).get? i = elems.get? i)
    ∧ renderedOfClass elems ≤ max_elems_per_class := by
  refine ⟨by simp [selectedOfClass], ?_, ?_⟩
  · intro i hi
    rw [selectedOfClass] at hi ⊢
    rw [List.length_take, lt_min_iff] at hi
    exact List.get?_take hi.1
  · calc renderedOfClass elems ≤ (selectedOfClass elems).length := List.countP_le_length _
    _ ≤ max_elems_per_class := by
        rw [selectedOfClass, List.length_take]
        omega

/-- C2 (witness for the amended claim): the window facts evaluated at a
one-candidate class. -/
theorem c2_leading_window_selection_witness :
    (0 : Nat) < (selectedOfClass [⟨true⟩]).length
    ∧ (selectedOfClass [⟨true⟩]).get? 0 = ([⟨true⟩] : List GeomElem).get? 0 := by
  refine ⟨by decide, (c2_leading_window_selection [⟨true⟩]).2.1 0 (by decide)⟩

/-! ## Claim C3 -/

/-- C3 (counterexample): with the geometry backend available, one IfcWall
candidate whose extraction fails, the figure comes back with zero meshes AND
zero annotations — an empty scene, not the claimed placeholder shape with a
diagnostic note. -/
theorem c3_placeholder_cex :
    byType exC3 "IfcWall" = [⟨false⟩]
    ∧ plot_ifc_mesh_basic exC3 defaultClasses = ⟨[], 0⟩ := by
  exact ⟨rfl, rfl⟩

/-- C3 (amended): a diagnostic annotation (with zero meshes) appears exactly
when the geometry backend is unavailable; when the backend is present a
rendered-zero figure is returned empty — no placeholder shape is added. -/
theorem c3_note_iff_backend_missing (m : GeomModel) (classes : List String) :
    ((plot_ifc_mesh_basic m classes).meshCount = 0
      ∧ (plot_ifc_mesh_basic m classes).notes ≠ [])
    ↔ m.geomOk = false := by
  cases h : m.geomOk with
  | false => simp [plot_ifc_mesh_basic, h]
  | true => simp [plot_ifc_mesh_basic, h]

/-! ## Claim C7 -/

/-- C7: merging a zone's containment and reference candidate lists
deduplicates by identifier — for any non-empty identifier the merged result
keeps exactly the first occurrence (the filtered sequence is the one-element
truncation of the filtered input), while elements with an empty identifier
are all kept, never deduplicated against each other. -/
theorem c7_merge_dedup (cont ref : List Element) (g : String) (hg : g ≠ "") :
    ((dedupByGid (cont ++ ref)).filter (fun e => e.global_id = g)
      = ((cont ++ ref).filter (fun e => e.global_id = g)).take 1)
    ∧ ((dedupByGid (cont ++ ref)).filter (fun e => e.global_id = "")
      = (cont ++ ref).filter (fun e => e.global_id = "")) := by
  refine ⟨?_, ?_⟩
  · exact (dedupGo_filter_of_ne g hg (cont ++ ref) []).2 (by simp)
  · exact dedupGo_filter_empty (cont ++ ref) []

/-- C7 (witness): one element fed through both a containment edge and a
reference edge of the same zone survives as exactly one entry. -/
theorem c7_merge_dedup_witness :
    ("elemw001" : String) ≠ ""
    ∧ ((dedupByGid ([wElem] ++ [wElem])).filter (fun e => e.global_id = "elemw001")
        = (([wElem] ++ [wElem]).filter (fun e => e.global_id = "elemw001")).take 1)
    ∧ ((dedupByGid ([wElem] ++ [wElem])).filter (fun e => e.global_id = "")
        = ([wElem] ++ [wElem]).filter (fun e => e.global_id = "")) := by
  have h := c7_merge_dedup [wElem] [wElem] "elemw001" (by decide)
  exact ⟨by decide, h.1, h.2⟩

/-! ## Lemmas: `best_room_match` (claims C4, C10) -/

lemma candScore_eq_of_match (q cand : String) (h : cand ≠ "" ∧ subStr cand q = true) :
    candScore q cand = cand.length := by
  rw [candScore, if_pos h]

lemma brmUpd_eq (q rid cand : String) (best : Option String × Nat) :
    brmUpd q rid cand best =
      if best.2 < candScore q cand then (some rid, candScore q cand) else best := by
  rw [brmUpd, candScore]
  by_cases hc : cand ≠ "" ∧ subStr cand q = true
  · rw [if_pos hc]
    by_cases hlt : best.2 < cand.length
    · rw [if_pos ⟨hc.1, hc.2, hlt⟩, if_pos hlt]
    · rw [if_neg (fun hh => hlt hh.2.2), if_neg hlt]
  · rw [if_neg (fun hh => hc ⟨hh.1, hh.2.1⟩), if_neg hc, if_neg (by omega)]

lemma brmStep_eq (q : String) (best : Option String × Nat) (p : String × Room) :
    brmStep q best p =
      if best.2 < roomScore q p.2 then (some p.1, roomScore q p.2) else best := by
  rw [brmStep, brmUpd_eq, brmUpd_eq, roomScore]
  by_cases h1 : best.2 < candScore q (normalize p.2.room_name)
  · rw [if_pos h1]
    by_cases h2 : ((some p.1, candScore q (normalize p.2.room_name)) : Option String × Nat).2 <
        candScore q (normalize p.2.room_longname)
    · have h2' : candScore q (normalize p.2.room_name) <
          candScore q (normalize p.2.room_longname) := h2
      rw [if_pos h2, if_pos (lt_max_iff.mpr (Or.inr (by omega))),
        Nat.max_eq_right (le_of_lt h2')]
    · have h2' : ¬ candScore q (normalize p.2.room_name) <
          candScore q (normalize p.2.room_longname) := h2
      rw [if_neg h2, if_pos (lt_max_iff.mpr (Or.inl h1)), Nat.max_eq_left (by omega)]
  · rw [if_neg h1]
    by_cases h2 : best.2 < candScore q (normalize p.2.room_longname)
    · rw [if_pos h2, if_pos (lt_max_iff.mpr (Or.inr h2)), Nat.max_eq_right (by omega)]
    · rw [if_neg h2,
        if_neg (not_lt.mpr (max_le_iff.mpr ⟨not_lt.mp h1, not_lt.mp h2⟩))]

lemma brm_fold (q : String) :
    ∀ (l : List (String × Room)) (b : Option String) (n : Nat),
      (l.foldl (brmStep q) (b, n) = (b, n) ∧ ∀ p ∈ l, roomScore q p.2 ≤ n)
      ∨ (∃ pre pp post, l = pre ++ pp :: post
          ∧ l.foldl (brmStep q) (b, n) = (some pp.1, roomScore q pp.2)
          ∧ n < roomScore q pp.2
          ∧ (∀ p ∈ pre, roomScore q p.2 < roomScore q pp.2)
          ∧ (∀ p ∈ post, roomScore q p.2 ≤ roomScore q pp.2)) := by
  intro l
  induction l with
  | nil =>
    intro b n
    left
    exact ⟨rfl, by simp⟩
  | cons hd t ih =>
    intro b n
    rw [List.foldl_cons, brmStep_eq]
    by_cases hlt : n < roomScore q hd.2
    · rw [if_pos hlt]
      rcases ih (some hd.1) (roomScore q hd.2) with ⟨heq, hle⟩ |
        ⟨pre, pp, post, hsplit, heq, hlt2, hpre, hpost⟩
      · right
        exact ⟨[], hd, t, by simp, heq, hlt, by simp, hle⟩
      · right
        refine ⟨hd :: pre, pp, post, by rw [hsplit, List.cons_append], heq, by omega, ?_, hpost⟩
        intro p hp
        rcases List.mem_cons.mp hp with hh | hh
        · rw [hh]
          exact hlt2
        · exact hpre p hh
    · rw [if_neg hlt]
      rcases ih b n with ⟨heq, hle⟩ | ⟨pre, pp, post, hsplit, heq, hlt2, hpre, hpost⟩
      · left
        refine ⟨heq, ?_⟩
        intro p hp
        rcases List.mem_cons.mp hp with hh | hh
        · rw [hh]
          omega
        · exact hle p hh
      · right
        refine ⟨hd :: pre, pp, post, by rw [hsplit, List.cons_append], heq, hlt2, ?_, hpost⟩
        intro p hp
        rcases List.mem_cons.mp hp with hh | hh
        · rw [hh]
          omega
        · exact hpre p hh

lemma best_room_match_mem (question : String) (index : Index) (rid : String)
    (h : best_room_match question index = some rid) :
    ∃ r, (rid, r) ∈ index.rooms := by
  rcases brm_fold (normalize question) index.rooms none 0 with ⟨heq, _⟩ |
    ⟨pre, pp, post, hsplit, heq, _, _, _⟩
  · rw [best_room_match, heq] at h
    simp at h
  · rw [best_room_match, heq] at h
    have hpp : pp.1 = rid := by simpa using h
    refine ⟨pp.2, ?_⟩
    rw [hsplit, ← hpp]
    exact List.mem_append_right _ (List.mem_cons_self _ _)

lemma best_room_match_lookup (question : String) (index : Index) (rid : String)
    (h : best_room_match question index = some rid) :
    (lookupAssoc index.rooms rid).isSome = true := by
  obtain ⟨r, hr⟩ := best_room_match_mem question index rid h
  exact lookupAssoc_isSome_of_mem index.rooms rid r hr

/-! ## Claim C4 -/

/-- C4: `best_room_match` returns `none` exactly when no zone's normalized
display or long name is a non-empty substring of the normalized question,
and otherwise returns the zone of maximal matching-substring length, with
the first zone in enumeration order winning ties (every earlier zone scores
strictly lower, every later zone scores no higher). -/
theorem c4_best_room_match_longest (question : String) (index : Index) :
    (best_room_match question index = none ↔
      ∀ p ∈ index.rooms, roomScore (normalize question) p.2 = 0)
    ∧ (∀ rid, best_room_match question index = some rid →
        ∃ pre r post, index.rooms = pre ++ (rid, r) :: post
          ∧ 0 < roomScore (normalize question) r
          ∧ (∀ p ∈ pre, roomScore (normalize question) p.2 < roomScore (normalize question) r)
          ∧ (∀ p ∈ post, roomScore (normalize question) p.2 ≤ roomScore (normalize question) r)) := by
  rcases brm_fold (normalize question) index.rooms none 0 with ⟨heq, hle⟩ |
    ⟨pre, pp, post, hsplit, heq, hlt, hpre, hpost⟩
  · constructor
    · constructor
      · intro _ p hp
        have := hle p hp
        omega
      · intro _
        rw [best_room_match, heq]
    · intro rid hrid
      rw [best_room_match, heq] at hrid
      simp at hrid
  · have hbm : best_room_match question index = some pp.1 := by
      rw [best_room_match, heq]
    constructor
    · constructor
      · intro h0
        rw [hbm] at h0
        simp at h0
      · intro hall
        have hmem : pp ∈ index.rooms := by
          rw [hsplit]
          exact List.mem_append_right _ (List.mem_cons_self _ _)
        have := hall pp hmem
        omega
    · intro rid hrid
      rw [hbm] at hrid
      have hr : pp.1 = rid := by simpa using hrid
      refine ⟨pre, pp.2, post, ?_, by omega, hpre, hpost⟩
      rw [hsplit, ← hr]

/-- C4 (witness): with zones "Office 1.01" and "Office 1", a question
containing "office 1.01" resolves to "Office 1.01". -/
theorem c4_best_room_match_longest_witness :
    best_room_match "was ist in office 1.01" officeIndex = some "r101"
    ∧ ∃ pre r post, officeIndex.rooms = pre ++ (("r101" : String), r) :: post
        ∧ 0 < roomScore (normalize "was ist in office 1.01") r
        ∧ (∀ p ∈ pre, roomScore (normalize "was ist in office 1.01") p.2 <
            roomScore (normalize "was ist in office 1.01") r)
        ∧ (∀ p ∈ post, roomScore (normalize "was ist in office 1.01") p.2 ≤
            roomScore (normalize "was ist in office 1.01") r) := by
  have h := (c4_best_room_match_longest "was ist in office 1.01" officeIndex).2 "r101" (by rfl)
  exact ⟨by rfl, h⟩

/-! ## Claim C10 -/

/-- C10: whenever `best_room_match` returns a zone id, that id is a key of
the index's `rooms` mapping, so the `index["rooms"][rid]` lookups of the
category and GA-in-room rules cannot fail. -/
theorem c10_best_match_key_valid (question : String) (index : Index) (rid : String)
    (h : best_room_match question index = some rid) :
    (lookupAssoc index.rooms rid).isSome = true :=
  best_room_match_lookup question index rid h

/-- C10 (witness): evaluated on the two-office index. -/
theorem c10_best_match_key_valid_witness :
    (lookupAssoc officeIndex.rooms "r101").isSome = true :=
  c10_best_match_key_valid "was ist in office 1.01" officeIndex "r101" (by rfl)

/-! ## Lemmas: totality of the rule cascade (claim C5) -/

lemma rule9_total (q : String) (index : Index) : ∃ s, rule9 q index = .ok s := by
  rw [rule9]
  by_cases hc : subStr "ga" q = true ∧ subStr "raum" q = true
  · rw [if_pos hc]
    cases hbm : best_room_match q index with
    | none => exact ⟨_, rfl⟩
    | some rid =>
      dsimp only
      have hs := best_room_match_lookup q index rid hbm
      cases hl : lookupAssoc index.rooms rid with
      | none =>
        rw [hl] at hs
        simp at hs
      | some r => exact ⟨_, rfl⟩
  · rw [if_neg hc]
    exact ⟨_, rfl⟩

lemma rule8_total (q : String) (index : Index) : ∃ s, rule8 q index = .ok s := by
  rw [rule8]
  cases hf : catList.find? (fun cat => subStr cat q && subStr "raum" q) with
  | none => exact rule9_total q index
  | some cat =>
    cases hbm : best_room_match q index with
    | none => exact ⟨_, rfl⟩
    | some rid =>
      dsimp only
      have hs := best_room_match_lookup q index rid hbm
      cases hl : lookupAssoc index.rooms rid with
      | none =>
        rw [hl] at hs
        simp at hs
      | some r => exact ⟨_, rfl⟩

lemma rule7_total (q question : String) (index : Index) :
    ∃ s, rule7 q question index = .ok s := by
  rw [rule7]
  cases hs : sucheSearch question.data with
  | none => exact rule8_total q index
  | some run =>
    dsimp only
    by_cases hn : normalize (String.mk run) = ""
    · rw [if_pos hn]
      exact ⟨_, rfl⟩
    · rw [if_neg hn]
      by_cases hh : (searchHits index (normalize (String.mk run))).isEmpty
      · rw [if_pos hh]
        exact ⟨_, rfl⟩
      · rw [if_neg hh]
        exact ⟨_, rfl⟩

lemma rule6_total (q question : String) (index : Index) :
    ∃ s, rule6 q question index = .ok s := by
  rw [rule6]
  cases hs : searchCap alts6 q with
  | none => exact rule7_total q question index
  | some gc =>
    dsimp only
    cases hf : findGaItem index (String.mk gc) with
    | none => exact ⟨_, rfl⟩
    | some p => exact ⟨_, rfl⟩

lemma rule5_total (q question : String) (index : Index) :
    ∃ s, rule5 q question index = .ok s := by
  rw [rule5]
  cases hs : searchCap alts5 q with
  | none => exact rule6_total q question index
  | some gc =>
    dsimp only
    cases hf : findGaItem index (String.mk gc) with
    | none => exact ⟨_, rfl⟩
    | some p => exact ⟨_, rfl⟩

lemma rule4_total (q question : String) (index : Index) :
    ∃ s, rule4 q question index = .ok s := by
  rw [rule4]
  cases hs : searchCap alts4 q with
  | none =>
    cases hb : (subStr "details" q || subStr "psets" q) <;>
      exact rule5_total q question index
  | some gc =>
    cases hb : (subStr "details" q || subStr "psets" q) with
    | false => exact ⟨_, rfl⟩
    | true => exact rule5_total q question index

lemma rule3_total (q question : String) (index : Index) :
    ∃ s, rule3 q question index = .ok s := by
  rw [rule3]
  by_cases hc : subStr "ga übersicht" q = true ∨ subStr "ga in jedem raum" q = true ∨
      subStr "in jedem raum" q = true
  · rw [if_pos hc]
    exact ⟨_, rfl⟩
  · rw [if_neg hc]
    exact rule4_total q question index

lemma rule2_total (q question : String) (index : Index) :
    ∃ s, rule2 q question index = .ok s := by
  rw [rule2]
  by_cases hc : subStr "liste räume" q = true ∨ subStr "räume auflisten" q = true
  · rw [if_pos hc]
    exact ⟨_, rfl⟩
  · rw [if_neg hc]
    exact rule3_total q question index

lemma answerCore_total (q question : String) (index : Index) :
    ∃ s, answerCore q question index = .ok s := by
  rw [answerCore]
  by_cases hc : q = "hilfe" ∨ q = "help" ∨ q = "?"
  · rw [if_pos hc]
    exact ⟨_, rfl⟩
  · rw [if_neg hc]
    exact rule2_total q question index

/-! ## Claim C5 -/

/-- C5: `answer` never reaches the `KeyError` path — every question and
index yield a user-facing text — and as a pure function it is trivially
deterministic: evaluating it twice on the same arguments gives the same
string. -/
theorem c5_answer_total_deterministic (question : String) (index : Index) :
    (∃ s, answer question index = Except.ok s)
    ∧ answer question index = answer question index :=
  ⟨answerCore_total (normalize question) question index, rfl⟩

/-! ## Claim C8 -/

/-- C8: a model without any element of the zone kind (no IfcSpace) builds to
the index with empty `rooms` and empty `global_lookup`, regardless of any
relationship records, and `answer "liste räume"` on that index reports that
no rooms were recognized. -/
theorem c8_empty_model (m : Model) (h : m.spaces = []) :
    build_room_index m = ⟨[], []⟩
    ∧ answer "liste räume" (build_room_index m)
        = .ok "Es wurden keine IfcSpace-Objekte (Räume) erkannt." := by
  have hb : build_room_index m = ⟨[], []⟩ := by
    rw [build_room_index, roomByGid, h]
    rfl
  refine ⟨hb, ?_⟩
  rw [hb]
  rfl

/-- C8 (witness): the empty-spaces model (which still carries a relationship
record) evaluated concretely. -/
theorem c8_empty_model_witness :
    build_room_index emptyModel = ⟨[], []⟩
    ∧ answer "liste räume" (build_room_index emptyModel)
        = .ok "Es wurden keine IfcSpace-Objekte (Räume) erkannt." :=
  c8_empty_model emptyModel rfl

/-! ## Lemmas: character classes -/

lemma plainIdChar_not_ws (c : Char) (h : plainIdChar c = true) : c.isWhitespace = false := by
  cases hb : c.isWhitespace with
  | false => rfl
  | true =>
    exfalso
    rw [Char.isWhitespace] at hb
    simp only [Bool.or_eq_true, decide_eq_true_eq] at hb
    rcases hb with ((h1 | h1) | h1) | h1 <;> subst h1 <;> exact absurd h (by decide)

lemma upperIdChar_not_ws (c : Char) (h : upperIdChar c = true) : c.isWhitespace = false := by
  cases hb : c.isWhitespace with
  | false => rfl
  | true =>
    exfalso
    rw [Char.isWhitespace] at hb
    simp only [Bool.or_eq_true, decide_eq_true_eq] at hb
    rcases hb with ((h1 | h1) | h1) | h1 <;> subst h1 <;> exact absurd h (by decide)

lemma plainIdChar_idCharP (c : Char) (h : plainIdChar c = true) : idCharP c = true := by
  rw [plainIdChar] at h
  rw [idCharP, Char.isAlphanum, Char.isAlpha]
  rcases Bool.or_eq_true_iff.mp h with h1 | h2
  · rcases Bool.or_eq_true_iff.mp h1 with hd | hl
    · simp [hd]
    · simp [hl]
  · simp [h2]

lemma plainIdChar_word (c : Char) (h : plainIdChar c = true) : isWordCharB c = true := by
  rw [plainIdChar] at h
  rw [isWordCharB, Char.isAlphanum, Char.isAlpha]
  rcases Bool.or_eq_true_iff.mp h with h1 | h2
  · rcases Bool.or_eq_true_iff.mp h1 with hd | hl
    · simp [hd]
    · simp [hl]
  · simp [h2]

lemma plainIdChar_ne (c r : Char) (h : plainIdChar c = true) (hr : plainIdChar r = false) :
    c ≠ r := by
  intro hh
  rw [hh, hr] at h
  cases h

/-! ## Lemmas: substring occurrence -/

lemma listHasPre_iff (n : List Char) :
    ∀ h : List Char, listHasPre n h = true ↔ ∃ t, h = n ++ t := by
  induction n with
  | nil =>
    intro h
    simp [listHasPre]
  | cons c ns ih =>
    intro h
    cases h with
    | nil =>
      simp only [listHasPre]
      constructor
      · intro hh
        cases hh
      · rintro ⟨t, ht⟩
        cases ht
    | cons d hs =>
      rw [listHasPre, Bool.and_eq_true, decide_eq_true_eq, ih hs]
      constructor
      · rintro ⟨hcd, t, ht⟩
        exact ⟨t, by rw [List.cons_append, ← hcd, ht]⟩
      · rintro ⟨t, ht⟩
        rw [List.cons_append] at ht
        injection ht with h1 h2
        exact ⟨h1.symm, t, h2⟩

lemma subOccurs_iff (n : List Char) :
    ∀ h : List Char, subOccurs n h = true ↔ ∃ s t, h = s ++ n ++ t := by
  intro h
  induction h with
  | nil =>
    cases n with
    | nil =>
      constructor
      · intro _
        exact ⟨[], [], rfl⟩
      · intro _
        rfl
    | cons c ns =>
      constructor
      · intro hh
        rw [subOccurs] at hh
        simp at hh
      · rintro ⟨s, t, hst⟩
        exfalso
        have hl := congrArg List.length hst
        simp only [List.length_nil, List.length_append, List.length_cons] at hl
        omega
  | cons d hs ih =>
    rw [subOccurs, Bool.or_eq_true, listHasPre_iff, ih]
    constructor
    · rintro (⟨t, ht⟩ | ⟨s, t, hst⟩)
      · exact ⟨[], t, by simpa using ht⟩
      · exact ⟨d :: s, t, by rw [hst]; rfl⟩
    · rintro ⟨s, t, hst⟩
      cases s with
      | nil =>
        left
        exact ⟨t, by simpa using hst⟩
      | cons e s' =>
        right
        rw [List.cons_append, List.cons_append] at hst
        injection hst with h1 h2
        exact ⟨s', t, by rw [h2, List.append_assoc]⟩

lemma subOccurs_false_of_not_mem (n h : List Char) (c : Char) (hc : c ∈ n) (hh : c ∉ h) :
    subOccurs n h = false := by
  cases hb : subOccurs n h with
  | false => rfl
  | true =>
    exfalso
    obtain ⟨s, t, hst⟩ := (subOccurs_iff n h).mp hb
    apply hh
    rw [hst]
    exact List.mem_append_left _ (List.mem_append_right _ hc)

lemma subOccurs_cons_false (n : List Char) (c : Char) (hs : List Char)
    (h1 : listHasPre n (c :: hs) = false) (h2 : subOccurs n hs = false) :
    subOccurs n (c :: hs) = false := by
  rw [subOccurs, h1, h2]
  rfl

lemma subOccurs_of_pre (n cs : List Char) (h : listHasPre n cs = true) :
    subOccurs n cs = true := by
  cases cs with
  | nil =>
    rw [subOccurs]
    cases n with
    | nil => rfl
    | cons c ns => cases h
  | cons c hs =>
    rw [subOccurs, h]
    rfl

/-! ## Lemmas: normalization -/

lemma takeWhile_ws_nil (gd : List Char) (h : ∀ c ∈ gd, c.isWhitespace = false) :
    gd.takeWhile (fun c => c.isWhitespace) = [] := by
  cases gd with
  | nil => rfl
  | cons c rest =>
    rw [List.takeWhile_cons]
    simp [h c (List.mem_cons_self c rest)]

lemma dropWhile_ws_self (gd : List Char) (h : ∀ c ∈ gd, c.isWhitespace = false) :
    gd.dropWhile (fun c => c.isWhitespace) = gd := by
  cases gd with
  | nil => rfl
  | cons c rest =>
    rw [List.dropWhile_cons]
    simp [h c (List.mem_cons_self c rest)]

lemma dropTrailingWs_all_nonws (l : List Char) (h : ∀ c ∈ l, c.isWhitespace = false) :
    dropTrailingWs l = l := by
  induction l with
  | nil => rfl
  | cons c rest ih =>
    simp only [dropTrailingWs]
    rw [ih (fun x hx => h x (List.mem_cons_of_mem c hx))]
    simp [h c (List.mem_cons_self c rest)]

lemma dropTrailingWs_append (a b : List Char) (hb : b ≠ [])
    (h : ∀ c ∈ b, c.isWhitespace = false) :
    dropTrailingWs (a ++ b) = a ++ b := by
  induction a with
  | nil =>
    simpa using dropTrailingWs_all_nonws b h
  | cons c a' ih =>
    rw [List.cons_append]
    simp only [dropTrailingWs]
    rw [ih]
    have hne : (a' ++ b) ≠ [] := by
      intro hz
      rcases List.append_eq_nil.mp hz with ⟨_, hb2⟩
      exact hb hb2
    have hie : (a' ++ b).isEmpty = false := by
      cases hab : a' ++ b with
      | nil => exact absurd hab hne
      | cons x xs => rfl
    simp [hie]

lemma collapse_both_nonws (l : List Char) (h : ∀ c ∈ l, c.isWhitespace = false) :
    collapseWs l = l ∧ collapseAfterWs l = l := by
  induction l with
  | nil => exact ⟨rfl, rfl⟩
  | cons c rest ih =>
    have hc : c.isWhitespace = false := h c (List.mem_cons_self c rest)
    have ihr := ih (fun x hx => h x (List.mem_cons_of_mem c hx))
    constructor
    · rw [collapseWs]
      simp [hc, ihr.1]
    · rw [collapseAfterWs]
      simp [hc, ihr.1]

lemma collapseWs_cons_nonws (c : Char) (l : List Char) (hc : c.isWhitespace = false) :
    collapseWs (c :: l) = c :: collapseWs l := by
  rw [collapseWs]
  simp [hc]

lemma collapseWs_cons_ws (c : Char) (l : List Char) (hc : c.isWhitespace = true) :
    collapseWs (c :: l) = ' ' :: collapseAfterWs l := by
  rw [collapseWs]
  simp [hc]

lemma collapseAfterWs_cons_nonws (c : Char) (l : List Char) (hc : c.isWhitespace = false) :
    collapseAfterWs (c :: l) = c :: collapseWs l := by
  rw [collapseAfterWs]
  simp [hc]

lemma normalizeChars_id_append (gd : List Char) (hne : gd ≠ [])
    (hnw : ∀ c ∈ gd, c.isWhitespace = false)
    (hmnw : ∀ c ∈ gd.map Char.toLower, c.isWhitespace = false) :
    normalizeChars ('i' :: 'd' :: ' ' :: gd)
      = 'i' :: 'd' :: ' ' :: gd.map Char.toLower := by
  rw [normalizeChars, stripWs]
  rw [show List.dropWhile (fun c => c.isWhitespace) ('i' :: 'd' :: ' ' ::gd)
      = 'i' :: 'd' :: ' ' ::gd from by rw [List.dropWhile_cons]; simp]
  rw [show ('i' :: 'd' :: ' ' ::gd : List Char) = ['i','d',' '] ++ gd from rfl]
  rw [dropTrailingWs_append ['i','d',' '] gd hne hnw]
  rw [List.map_append]
  rw [show List.map Char.toLower ['i','d',' '] = ['i','d',' '] from by decide]
  rw [show (['i','d',' '] : List Char) ++ gd.map Char.toLower
      = 'i' :: 'd' :: ' ' ::gd.map Char.toLower from rfl]
  rw [collapseWs_cons_nonws _ _ (by decide), collapseWs_cons_nonws _ _ (by decide),
    collapseWs_cons_ws _ _ (by decide), (collapse_both_nonws _ hmnw).2]

lemma normalizeChars_details_id_append (gd : List Char) (hne : gd ≠ [])
    (hnw : ∀ c ∈ gd, c.isWhitespace = false)
    (hmnw : ∀ c ∈ gd.map Char.toLower, c.isWhitespace = false) :
    normalizeChars ('d' :: 'e' :: 't' :: 'a' :: 'i' :: 'l' :: 's' :: ' ' :: 'i' :: 'd' :: ' ' ::gd)
      = 'd' :: 'e' :: 't' :: 'a' :: 'i' :: 'l' :: 's' :: ' ' :: 'i' :: 'd' :: ' ' ::gd.map Char.toLower := by
  rw [normalizeChars, stripWs]
  rw [show List.dropWhile (fun c => c.isWhitespace)
        ('d' :: 'e' :: 't' :: 'a' :: 'i' :: 'l' :: 's' :: ' ' :: 'i' :: 'd' :: ' ' ::gd)
      = 'd' :: 'e' :: 't' :: 'a' :: 'i' :: 'l' :: 's' :: ' ' :: 'i' :: 'd' :: ' ' ::gd from by
    rw [List.dropWhile_cons]; simp]
  rw [show ('d' :: 'e' :: 't' :: 'a' :: 'i' :: 'l' :: 's' :: ' ' :: 'i' :: 'd' :: ' ' ::gd : List Char)
      = ['d','e','t','a','i','l','s',' ','i','d',' '] ++ gd from rfl]
  rw [dropTrailingWs_append _ gd hne hnw]
  rw [List.map_append]
  rw [show List.map Char.toLower ['d','e','t','a','i','l','s',' ','i','d',' ']
      = ['d','e','t','a','i','l','s',' ','i','d',' '] from by decide]
  rw [show (['d','e','t','a','i','l','s',' ','i','d',' '] : List Char) ++ gd.map Char.toLower
      = 'd' :: 'e' :: 't' :: 'a' :: 'i' :: 'l' :: 's' :: ' ' :: 'i' :: 'd' :: ' ' ::gd.map Char.toLower from rfl]
  rw [collapseWs_cons_nonws _ _ (by decide), collapseWs_cons_nonws _ _ (by decide),
    collapseWs_cons_nonws _ _ (by decide), collapseWs_cons_nonws _ _ (by decide),
    collapseWs_cons_nonws _ _ (by decide), collapseWs_cons_nonws _ _ (by decide),
    collapseWs_cons_nonws _ _ (by decide), collapseWs_cons_ws _ _ (by decide),
    collapseAfterWs_cons_nonws _ _ (by decide), collapseWs_cons_nonws _ _ (by decide),
    collapseWs_cons_ws _ _ (by decide), (collapse_both_nonws _ hmnw).2]

lemma normalizeChars_psets_id_append (gd : List Char) (hne : gd ≠ [])
    (hnw : ∀ c ∈ gd, c.isWhitespace = false)
    (hmnw : ∀ c ∈ gd.map Char.toLower, c.isWhitespace = false) :
    normalizeChars ('p' :: 's' :: 'e' :: 't' :: 's' :: ' ' :: 'i' :: 'd' :: ' ' ::gd)
      = 'p' :: 's' :: 'e' :: 't' :: 's' :: ' ' :: 'i' :: 'd' :: ' ' ::gd.map Char.toLower := by
  rw [normalizeChars, stripWs]
  rw [show List.dropWhile (fun c => c.isWhitespace)
        ('p' :: 's' :: 'e' :: 't' :: 's' :: ' ' :: 'i' :: 'd' :: ' ' ::gd)
      = 'p' :: 's' :: 'e' :: 't' :: 's' :: ' ' :: 'i' :: 'd' :: ' ' ::gd from by
    rw [List.dropWhile_cons]; simp]
  rw [show ('p' :: 's' :: 'e' :: 't' :: 's' :: ' ' :: 'i' :: 'd' :: ' ' ::gd : List Char)
      = ['p','s','e','t','s',' ','i','d',' '] ++ gd from rfl]
  rw [dropTrailingWs_append _ gd hne hnw]
  rw [List.map_append]
  rw [show List.map Char.toLower ['p','s','e','t','s',' ','i','d',' ']
      = ['p','s','e','t','s',' ','i','d',' '] from by decide]
  rw [show (['p','s','e','t','s',' ','i','d',' '] : List Char) ++ gd.map Char.toLower
      = 'p' :: 's' :: 'e' :: 't' :: 's' :: ' ' :: 'i' :: 'd' :: ' ' ::gd.map Char.toLower from rfl]
  rw [collapseWs_cons_nonws _ _ (by decide), collapseWs_cons_nonws _ _ (by decide),
    collapseWs_cons_nonws _ _ (by decide), collapseWs_cons_nonws _ _ (by decide),
    collapseWs_cons_nonws _ _ (by decide), collapseWs_cons_ws _ _ (by decide),
    collapseAfterWs_cons_nonws _ _ (by decide), collapseWs_cons_nonws _ _ (by decide),
    collapseWs_cons_ws _ _ (by decide), (collapse_both_nonws _ hmnw).2]

/-! ## Lemmas: the id-pattern scanner -/

lemma mem_of_getLast_opt : ∀ (l : List Char) (a : Char), l.getLast? = some a → a ∈ l := by
  intro l
  induction l with
  | nil =>
    intro a h
    cases h
  | cons c rest ih =>
    intro a h
    cases rest with
    | nil =>
      rw [List.getLast?_singleton] at h
      injection h with h1
      rw [h1]
      exact List.mem_cons_self a []
    | cons d rs =>
      rw [List.getLast?_cons_cons] at h
      exact List.mem_cons_of_mem c (ih a h)

lemma captureGo_word_end (run : List Char) (h6 : 6 ≤ run.length)
    (hword : ∀ c ∈ run, isWordCharB c = true) :
    captureGo run.reverse [] = some run := by
  cases hr : run.reverse with
  | nil =>
    exfalso
    have hz : run = [] := by
      have h2 := congrArg List.reverse hr
      simpa using h2
    rw [hz] at h6
    simp at h6
  | cons lastc revInit =>
    rw [captureGo]
    have hlen : (lastc :: revInit).length = run.length := by
      rw [← hr, List.length_reverse]
    rw [if_neg (by rw [hlen]; omega)]
    have hmem : lastc ∈ run := by
      have hm : lastc ∈ run.reverse := by
        rw [hr]
        exact List.mem_cons_self _ _
      exact List.mem_reverse.mp hm
    rw [if_pos (by rw [hword lastc hmem]; decide)]
    rw [← hr, List.reverse_reverse]

lemma captureId_all_word (gd : List Char) (h6 : 6 ≤ gd.length)
    (hid : ∀ c ∈ gd, idCharP c = true) (hword : ∀ c ∈ gd, isWordCharB c = true) :
    captureId gd = some gd := by
  rw [captureId]
  rw [List.takeWhile_eq_self_iff.mpr hid, List.dropWhile_eq_nil_iff.mpr (fun c hc => hid c hc)]
  exact captureGo_word_end gd h6 hword

lemma wsPlus_space_cons (c : Char) (l : List Char) (hc : c.isWhitespace = false) :
    wsPlus (' ' :: c :: l) = some (c :: l) := by
  rw [wsPlus, List.takeWhile_cons, List.dropWhile_cons]
  simp only [List.takeWhile_cons, List.dropWhile_cons, hc]
  simp +decide

lemma wsPlus_space_nonws (l : List Char) (hne : l ≠ []) (h : ∀ c ∈ l, c.isWhitespace = false) :
    wsPlus (' ' :: l) = some l := by
  cases l with
  | nil => exact absurd rfl hne
  | cons c rest => exact wsPlus_space_cons c rest (h c (List.mem_cons_self c rest))

lemma matchSeq_id_tail (gd : List Char) (h6 : 6 ≤ gd.length) (hne : gd ≠ [])
    (hid : ∀ c ∈ gd, idCharP c = true) (hword : ∀ c ∈ gd, isWordCharB c = true)
    (hnw : ∀ c ∈ gd, c.isWhitespace = false) :
    matchSeq ["id".data] ('i' :: 'd' :: ' ' ::gd) = some gd := by
  rw [matchSeq, matchLit]
  rw [if_pos (show listHasPre "id".data ('i' :: 'd' :: ' ' ::gd) = true from rfl)]
  rw [show List.drop ("id".data.length) ('i' :: 'd' :: ' ' ::gd) = ' ' ::gd from rfl]
  dsimp only
  rw [wsPlus_space_nonws gd hne hnw]
  dsimp only
  rw [matchSeq]
  exact captureId_all_word gd h6 hid hword

lemma searchGo_id_at (prev : Option Char) (hprev : prevIsWord prev = false)
    (gd : List Char) (h6 : 6 ≤ gd.length) (hne : gd ≠ [])
    (hid : ∀ c ∈ gd, idCharP c = true) (hword : ∀ c ∈ gd, isWordCharB c = true)
    (hnw : ∀ c ∈ gd, c.isWhitespace = false) :
    searchGo alts4 prev ('i' :: 'd' :: ' ' ::gd) = some gd := by
  rw [searchGo, if_neg (by rw [hprev]; decide)]
  rw [show alts4 = [["id".data], ["globalid".data]] from rfl]
  rw [tryAlts, matchSeq_id_tail gd h6 hne hid hword hnw]

lemma matchSeq_details_id_tail (gd : List Char) (h6 : 6 ≤ gd.length) (hne : gd ≠ [])
    (hid : ∀ c ∈ gd, idCharP c = true) (hword : ∀ c ∈ gd, isWordCharB c = true)
    (hnw : ∀ c ∈ gd, c.isWhitespace = false) :
    matchSeq ["details".data, "id".data]
      ('d' :: 'e' :: 't' :: 'a' :: 'i' :: 'l' :: 's' :: ' ' :: 'i' :: 'd' :: ' ' ::gd) = some gd := by
  rw [matchSeq, matchLit]
  rw [if_pos (show listHasPre "details".data
    ('d' :: 'e' :: 't' :: 'a' :: 'i' :: 'l' :: 's' :: ' ' :: 'i' :: 'd' :: ' ' ::gd) = true from rfl)]
  rw [show List.drop ("details".data.length)
      ('d' :: 'e' :: 't' :: 'a' :: 'i' :: 'l' :: 's' :: ' ' :: 'i' :: 'd' :: ' ' ::gd) = ' ' :: 'i' :: 'd' :: ' ' ::gd from rfl]
  dsimp only
  rw [wsPlus_space_cons 'i' ('d' :: ' ' ::gd) (by decide)]
  dsimp only
  exact matchSeq_id_tail gd h6 hne hid hword hnw

lemma searchGo_details_id (gd : List Char) (h6 : 6 ≤ gd.length) (hne : gd ≠ [])
    (hid : ∀ c ∈ gd, idCharP c = true) (hword : ∀ c ∈ gd, isWordCharB c = true)
    (hnw : ∀ c ∈ gd, c.isWhitespace = false) :
    searchGo alts5 none ('d' :: 'e' :: 't' :: 'a' :: 'i' :: 'l' :: 's' :: ' ' :: 'i' :: 'd' :: ' ' ::gd)
      = some gd := by
  rw [searchGo, if_neg (by decide)]
  rw [show alts5 = [["details".data, "id".data]] from rfl]
  rw [tryAlts, matchSeq_details_id_tail gd h6 hne hid hword hnw]

lemma matchSeq_psets_id_tail (gd : List Char) (h6 : 6 ≤ gd.length) (hne : gd ≠ [])
    (hid : ∀ c ∈ gd, idCharP c = true) (hword : ∀ c ∈ gd, isWordCharB c = true)
    (hnw : ∀ c ∈ gd, c.isWhitespace = false) :
    matchSeq ["psets".data, "id".data]
      ('p' :: 's' :: 'e' :: 't' :: 's' :: ' ' :: 'i' :: 'd' :: ' ' ::gd) = some gd := by
  rw [matchSeq, matchLit]
  rw [if_pos (show listHasPre "psets".data
    ('p' :: 's' :: 'e' :: 't' :: 's' :: ' ' :: 'i' :: 'd' :: ' ' ::gd) = true from rfl)]
  rw [show List.drop ("psets".data.length)
      ('p' :: 's' :: 'e' :: 't' :: 's' :: ' ' :: 'i' :: 'd' :: ' ' ::gd) = ' ' :: 'i' :: 'd' :: ' ' ::gd from rfl]
  dsimp only
  rw [wsPlus_space_cons 'i' ('d' :: ' ' ::gd) (by decide)]
  dsimp only
  exact matchSeq_id_tail gd h6 hne hid hword hnw

lemma searchGo_psets_id (gd : List Char) (h6 : 6 ≤ gd.length) (hne : gd ≠ [])
    (hid : ∀ c ∈ gd, idCharP c = true) (hword : ∀ c ∈ gd, isWordCharB c = true)
    (hnw : ∀ c ∈ gd, c.isWhitespace = false) :
    searchGo alts6 none ('p' :: 's' :: 'e' :: 't' :: 's' :: ' ' :: 'i' :: 'd' :: ' ' ::gd) = some gd := by
  rw [searchGo, if_neg (by decide)]
  rw [show alts6 = [["psets".data, "id".data]] from rfl]
  rw [tryAlts, matchSeq_psets_id_tail gd h6 hne hid hword hnw]

lemma searchGo_alts4_after_details (gd : List Char) (h6 : 6 ≤ gd.length) (hne : gd ≠ [])
    (hid : ∀ c ∈ gd, idCharP c = true) (hword : ∀ c ∈ gd, isWordCharB c = true)
    (hnw : ∀ c ∈ gd, c.isWhitespace = false) :
    searchGo alts4 none ('d' :: 'e' :: 't' :: 'a' :: 'i' :: 'l' :: 's' :: ' ' :: 'i' :: 'd' :: ' ' ::gd)
      = some gd := by
  have hstep : searchGo alts4 none ('d' :: 'e' :: 't' :: 'a' :: 'i' :: 'l' :: 's' :: ' ' :: 'i' :: 'd' :: ' ' ::gd)
      = searchGo alts4 (some ' ') ('i' :: 'd' :: ' ' ::gd) := rfl
  rw [hstep]
  exact searchGo_id_at (some ' ') (by decide) gd h6 hne hid hword hnw

lemma searchGo_alts4_after_psets (gd : List Char) (h6 : 6 ≤ gd.length) (hne : gd ≠ [])
    (hid : ∀ c ∈ gd, idCharP c = true) (hword : ∀ c ∈ gd, isWordCharB c = true)
    (hnw : ∀ c ∈ gd, c.isWhitespace = false) :
    searchGo alts4 none ('p' :: 's' :: 'e' :: 't' :: 's' :: ' ' :: 'i' :: 'd' :: ' ' ::gd) = some gd := by
  have hstep : searchGo alts4 none ('p' :: 's' :: 'e' :: 't' :: 's' :: ' ' :: 'i' :: 'd' :: ' ' ::gd)
      = searchGo alts4 (some ' ') ('i' :: 'd' :: ' ' ::gd) := rfl
  rw [hstep]
  exact searchGo_id_at (some ' ') (by decide) gd h6 hne hid hword hnw

lemma matchSeq_none_of_not_pre (kw : List Char) (kws : List (List Char)) (cs : List Char)
    (h : listHasPre kw cs = false) : matchSeq (kw :: kws) cs = none := by
  rw [matchSeq, matchLit, h]
  rfl

lemma searchGo_alts5_none (cs : List Char) :
    ∀ prev : Option Char, subOccurs "details".data cs = false →
      searchGo alts5 prev cs = none := by
  induction cs with
  | nil =>
    intro prev _
    rfl
  | cons c rest ih =>
    intro prev h
    rw [subOccurs] at h
    have h1 : listHasPre "details".data (c :: rest) = false := by
      cases hb : listHasPre "details".data (c :: rest) with
      | false => rfl
      | true =>
        rw [hb] at h
        simp at h
    have h2 : subOccurs "details".data rest = false := by
      cases hb : subOccurs "details".data rest with
      | false => rfl
      | true =>
        rw [hb] at h
        simp at h
    rw [searchGo]
    have hta : tryAlts alts5 (c :: rest) = none := by
      rw [show alts5 = [["details".data, "id".data]] from rfl, tryAlts,
        matchSeq_none_of_not_pre _ _ _ h1]
      rfl
    cases hp : prevIsWord prev with
    | true => simp only [hp, if_pos]; exact ih (some c) h2
    | false =>
      simp only [hp, Bool.false_eq_true, if_neg, not_false_iff, hta]
      exact ih (some c) h2

/-! ## Lemmas: evaluating `answer` on identifier queries (claims C6, C9) -/

lemma mk_ne_of_data_length (l : List Char) (s : String) (h : l.length ≠ s.data.length) :
    String.mk l ≠ s := by
  intro hh
  apply h
  have h2 : l = s.data := congrArg String.data hh
  rw [h2]

lemma answer_id_core (index : Index) (qt lk : String)
    (h6 : 6 ≤ lk.data.length)
    (hqne : qt.data ≠ [])
    (hqnw : ∀ c ∈ qt.data, c.isWhitespace = false)
    (hmap : qt.data.map Char.toLower = lk.data)
    (hplain : ∀ c ∈ lk.data, plainIdChar c = true)
    (hnd : subOccurs "details".data lk.data = false)
    (hnp : subOccurs "psets".data lk.data = false) :
    answer ("id " ++ qt) index =
      .ok (match lookupAssoc index.global_lookup lk with
           | none => "Kein Element mit GlobalId `" ++ lk ++ "` gefunden."
           | some hit => elementFoundMsg hit lk) := by
  have hlnw : ∀ c ∈ lk.data, c.isWhitespace = false :=
    fun c hc => plainIdChar_not_ws c (hplain c hc)
  have hlne : lk.data ≠ [] := by
    intro hz
    rw [hz] at h6
    simp at h6
  have hid : ∀ c ∈ lk.data, idCharP c = true :=
    fun c hc => plainIdChar_idCharP c (hplain c hc)
  have hword : ∀ c ∈ lk.data, isWordCharB c = true :=
    fun c hc => plainIdChar_word c (hplain c hc)
  have hnA : 'ä' ∉ lk.data := fun hm => absurd (hplain 'ä' hm) (by decide)
  have hnU : 'ü' ∉ lk.data := fun hm => absurd (hplain 'ü' hm) (by decide)
  have hnS : ' ' ∉ lk.data := fun hm => absurd (hplain ' ' hm) (by decide)
  have hq : normalize ("id " ++ qt) = String.mk ('i' :: 'd' :: ' ' ::lk.data) := by
    rw [normalize]
    have hdq : ("id " ++ qt).data = 'i' :: 'd' :: ' ' ::qt.data := rfl
    rw [hdq, normalizeChars_id_append qt.data hqne hqnw (by rw [hmap]; exact hlnw), hmap]
  have hq1 : ¬(String.mk ('i' :: 'd' :: ' ' ::lk.data) = "hilfe" ∨
      String.mk ('i' :: 'd' :: ' ' ::lk.data) = "help" ∨
      String.mk ('i' :: 'd' :: ' ' ::lk.data) = "?") := by
    rintro (h | h | h) <;>
      exact mk_ne_of_data_length _ _ (by
        simp only [List.length_cons, List.length_nil]
        omega) h
  have hr2a : subStr "liste räume" (String.mk ('i' :: 'd' :: ' ' ::lk.data)) = false := by
    show subOccurs "liste räume".data ('i' :: 'd' :: ' ' ::lk.data) = false
    refine subOccurs_cons_false _ _ _ (by rfl) ?_
    refine subOccurs_cons_false _ _ _ (by rfl) ?_
    refine subOccurs_cons_false _ _ _ (by rfl) ?_
    exact subOccurs_false_of_not_mem _ _ 'ä' (by decide) hnA
  have hr2b : subStr "räume auflisten" (String.mk ('i' :: 'd' :: ' ' ::lk.data)) = false := by
    show subOccurs "räume auflisten".data ('i' :: 'd' :: ' ' ::lk.data) = false
    refine subOccurs_cons_false _ _ _ (by rfl) ?_
    refine subOccurs_cons_false _ _ _ (by rfl) ?_
    refine subOccurs_cons_false _ _ _ (by rfl) ?_
    exact subOccurs_false_of_not_mem _ _ 'ä' (by decide) hnA
  have hr3a : subStr "ga übersicht" (String.mk ('i' :: 'd' :: ' ' ::lk.data)) = false := by
    show subOccurs "ga übersicht".data ('i' :: 'd' :: ' ' ::lk.data) = false
    refine subOccurs_cons_false _ _ _ (by rfl) ?_
    refine subOccurs_cons_false _ _ _ (by rfl) ?_
    refine subOccurs_cons_false _ _ _ (by rfl) ?_
    exact subOccurs_false_of_not_mem _ _ 'ü' (by decide) hnU
  have hr3b : subStr "ga in jedem raum" (String.mk ('i' :: 'd' :: ' ' ::lk.data)) = false := by
    show subOccurs "ga in jedem raum".data ('i' :: 'd' :: ' ' ::lk.data) = false
    refine subOccurs_cons_false _ _ _ (by rfl) ?_
    refine subOccurs_cons_false _ _ _ (by rfl) ?_
    refine subOccurs_cons_false _ _ _ (by rfl) ?_
    exact subOccurs_false_of_not_mem _ _ ' ' (by decide) hnS
  have hr3c : subStr "in jedem raum" (String.mk ('i' :: 'd' :: ' ' ::lk.data)) = false := by
    show subOccurs "in jedem raum".data ('i' :: 'd' :: ' ' ::lk.data) = false
    refine subOccurs_cons_false _ _ _ (by rfl) ?_
    refine subOccurs_cons_false _ _ _ (by rfl) ?_
    refine subOccurs_cons_false _ _ _ (by rfl) ?_
    exact subOccurs_false_of_not_mem _ _ ' ' (by decide) hnS
  have hgd : subStr "details" (String.mk ('i' :: 'd' :: ' ' ::lk.data)) = false := by
    show subOccurs "details".data ('i' :: 'd' :: ' ' ::lk.data) = false
    refine subOccurs_cons_false _ _ _ (by rfl) ?_
    refine subOccurs_cons_false _ _ _ (by rfl) ?_
    refine subOccurs_cons_false _ _ _ (by rfl) ?_
    exact hnd
  have hgp : subStr "psets" (String.mk ('i' :: 'd' :: ' ' ::lk.data)) = false := by
    show subOccurs "psets".data ('i' :: 'd' :: ' ' ::lk.data) = false
    refine subOccurs_cons_false _ _ _ (by rfl) ?_
    refine subOccurs_cons_false _ _ _ (by rfl) ?_
    refine subOccurs_cons_false _ _ _ (by rfl) ?_
    exact hnp
  have hs4 : searchCap alts4 (String.mk ('i' :: 'd' :: ' ' ::lk.data)) = some lk.data :=
    searchGo_id_at none rfl lk.data h6 hlne hid hword hlnw
  have hr2 : ¬(subStr "liste räume" (String.mk ('i' :: 'd' :: ' ' ::lk.data)) = true ∨
      subStr "räume auflisten" (String.mk ('i' :: 'd' :: ' ' ::lk.data)) = true) := by
    rintro (h | h)
    · rw [hr2a] at h
      exact absurd h (by decide)
    · rw [hr2b] at h
      exact absurd h (by decide)
  have hr3 : ¬(subStr "ga übersicht" (String.mk ('i' :: 'd' :: ' ' ::lk.data)) = true ∨
      subStr "ga in jedem raum" (String.mk ('i' :: 'd' :: ' ' ::lk.data)) = true ∨
      subStr "in jedem raum" (String.mk ('i' :: 'd' :: ' ' ::lk.data)) = true) := by
    rintro (h | h | h)
    · rw [hr3a] at h
      exact absurd h (by decide)
    · rw [hr3b] at h
      exact absurd h (by decide)
    · rw [hr3c] at h
      exact absurd h (by decide)
  rw [answer, hq, answerCore, if_neg hq1]
  rw [rule2, if_neg hr2]
  rw [rule3, if_neg hr3]
  rw [rule4, hs4]
  rw [show (subStr "details" (String.mk ('i' :: 'd' :: ' ' ::lk.data)) ||
      subStr "psets" (String.mk ('i' :: 'd' :: ' ' ::lk.data))) = false from by
    rw [hgd, hgp]
    decide]

lemma answer_details_id_core (index : Index) (qt lk : String)
    (h6 : 6 ≤ lk.data.length)
    (hqne : qt.data ≠ [])
    (hqnw : ∀ c ∈ qt.data, c.isWhitespace = false)
    (hmap : qt.data.map Char.toLower = lk.data)
    (hplain : ∀ c ∈ lk.data, plainIdChar c = true)
    (hnd : subOccurs "details".data lk.data = false)
    (hnp : subOccurs "psets".data lk.data = false) :
    answer ("details id " ++ qt) index =
      .ok (match findGaItem index lk with
           | some p => detailsMsg p.1 p.2 lk
           | none => "Keine GA-Details zu `" ++ lk ++ "` gefunden.") := by
  have hlnw : ∀ c ∈ lk.data, c.isWhitespace = false :=
    fun c hc => plainIdChar_not_ws c (hplain c hc)
  have hlne : lk.data ≠ [] := by
    intro hz
    rw [hz] at h6
    simp at h6
  have hid : ∀ c ∈ lk.data, idCharP c = true :=
    fun c hc => plainIdChar_idCharP c (hplain c hc)
  have hword : ∀ c ∈ lk.data, isWordCharB c = true :=
    fun c hc => plainIdChar_word c (hplain c hc)
  have hnA : 'ä' ∉ lk.data := fun hm => absurd (hplain 'ä' hm) (by decide)
  have hnU : 'ü' ∉ lk.data := fun hm => absurd (hplain 'ü' hm) (by decide)
  have hnS : ' ' ∉ lk.data := fun hm => absurd (hplain ' ' hm) (by decide)
  have hq : normalize ("details id " ++ qt)
      = String.mk ('d' :: 'e' :: 't' :: 'a' :: 'i' :: 'l' :: 's' :: ' ' :: 'i' :: 'd' :: ' ' ::lk.data) := by
    rw [normalize]
    have hdq : ("details id " ++ qt).data
        = 'd' :: 'e' :: 't' :: 'a' :: 'i' :: 'l' :: 's' :: ' ' :: 'i' :: 'd' :: ' ' ::qt.data := rfl
    rw [hdq, normalizeChars_details_id_append qt.data hqne hqnw (by rw [hmap]; exact hlnw), hmap]
  have hq1 : ¬(String.mk ('d' :: 'e' :: 't' :: 'a' :: 'i' :: 'l' :: 's' :: ' ' :: 'i' :: 'd' :: ' ' ::lk.data) = "hilfe" ∨
      String.mk ('d' :: 'e' :: 't' :: 'a' :: 'i' :: 'l' :: 's' :: ' ' :: 'i' :: 'd' :: ' ' ::lk.data) = "help" ∨
      String.mk ('d' :: 'e' :: 't' :: 'a' :: 'i' :: 'l' :: 's' :: ' ' :: 'i' :: 'd' :: ' ' ::lk.data) = "?") := by
    rintro (h | h | h) <;>
      exact mk_ne_of_data_length _ _ (by
        simp only [List.length_cons, List.length_nil]
        omega) h
  have hr2a : subStr "liste räume"
      (String.mk ('d' :: 'e' :: 't' :: 'a' :: 'i' :: 'l' :: 's' :: ' ' :: 'i' :: 'd' :: ' ' ::lk.data)) = false := by
    show subOccurs "liste räume".data
      ('d' :: 'e' :: 't' :: 'a' :: 'i' :: 'l' :: 's' :: ' ' :: 'i' :: 'd' :: ' ' ::lk.data) = false
    repeat refine subOccurs_cons_false _ _ _ (by rfl) ?_
    exact subOccurs_false_of_not_mem _ _ 'ä' (by decide) hnA
  have hr2b : subStr "räume auflisten"
      (String.mk ('d' :: 'e' :: 't' :: 'a' :: 'i' :: 'l' :: 's' :: ' ' :: 'i' :: 'd' :: ' ' ::lk.data)) = false := by
    show subOccurs "räume auflisten".data
      ('d' :: 'e' :: 't' :: 'a' :: 'i' :: 'l' :: 's' :: ' ' :: 'i' :: 'd' :: ' ' ::lk.data) = false
    repeat refine subOccurs_cons_false _ _ _ (by rfl) ?_
    exact subOccurs_false_of_not_mem _ _ 'ä' (by decide) hnA
  have hr3a : subStr "ga übersicht"
      (String.mk ('d' :: 'e' :: 't' :: 'a' :: 'i' :: 'l' :: 's' :: ' ' :: 'i' :: 'd' :: ' ' ::lk.data)) = false := by
    show subOccurs "ga übersicht".data
      ('d' :: 'e' :: 't' :: 'a' :: 'i' :: 'l' :: 's' :: ' ' :: 'i' :: 'd' :: ' ' ::lk.data) = false
    repeat refine subOccurs_cons_false _ _ _ (by rfl) ?_
    exact subOccurs_false_of_not_mem _ _ 'ü' (by decide) hnU
  have hr3b : subStr "ga in jedem raum"
      (String.mk ('d' :: 'e' :: 't' :: 'a' :: 'i' :: 'l' :: 's' :: ' ' :: 'i' :: 'd' :: ' ' ::lk.data)) = false := by
    show subOccurs "ga in jedem raum".data
      ('d' :: 'e' :: 't' :: 'a' :: 'i' :: 'l' :: 's' :: ' ' :: 'i' :: 'd' :: ' ' ::lk.data) = false
    repeat refine subOccurs_cons_false _ _ _ (by rfl) ?_
    exact subOccurs_false_of_not_mem _ _ ' ' (by decide) hnS
  have hr3c : subStr "in jedem raum"
      (String.mk ('d' :: 'e' :: 't' :: 'a' :: 'i' :: 'l' :: 's' :: ' ' :: 'i' :: 'd' :: ' ' ::lk.data)) = false := by
    show subOccurs "in jedem raum".data
      ('d' :: 'e' :: 't' :: 'a' :: 'i' :: 'l' :: 's' :: ' ' :: 'i' :: 'd' :: ' ' ::lk.data) = false
    repeat refine subOccurs_cons_false _ _ _ (by rfl) ?_
    exact subOccurs_false_of_not_mem _ _ ' ' (by decide) hnS
  have hr2 : ¬(subStr "liste räume"
      (String.mk ('d' :: 'e' :: 't' :: 'a' :: 'i' :: 'l' :: 's' :: ' ' :: 'i' :: 'd' :: ' ' ::lk.data)) = true ∨
      subStr "räume auflisten"
      (String.mk ('d' :: 'e' :: 't' :: 'a' :: 'i' :: 'l' :: 's' :: ' ' :: 'i' :: 'd' :: ' ' ::lk.data)) = true) := by
    rintro (h | h)
    · rw [hr2a] at h
      exact absurd h (by decide)
    · rw [hr2b] at h
      exact absurd h (by decide)
  have hr3 : ¬(subStr "ga übersicht"
      (String.mk ('d' :: 'e' :: 't' :: 'a' :: 'i' :: 'l' :: 's' :: ' ' :: 'i' :: 'd' :: ' ' ::lk.data)) = true ∨
      subStr "ga in jedem raum"
      (String.mk ('d' :: 'e' :: 't' :: 'a' :: 'i' :: 'l' :: 's' :: ' ' :: 'i' :: 'd' :: ' ' ::lk.data)) = true ∨
      subStr "in jedem raum"
      (String.mk ('d' :: 'e' :: 't' :: 'a' :: 'i' :: 'l' :: 's' :: ' ' :: 'i' :: 'd' :: ' ' ::lk.data)) = true) := by
    rintro (h | h | h)
    · rw [hr3a] at h
      exact absurd h (by decide)
    · rw [hr3b] at h
      exact absurd h (by decide)
    · rw [hr3c] at h
      exact absurd h (by decide)
  have hs4 : searchCap alts4
      (String.mk ('d' :: 'e' :: 't' :: 'a' :: 'i' :: 'l' :: 's' :: ' ' :: 'i' :: 'd' :: ' ' ::lk.data))
      = some lk.data :=
    searchGo_alts4_after_details lk.data h6 hlne hid hword hlnw
  have hdet : subStr "details"
      (String.mk ('d' :: 'e' :: 't' :: 'a' :: 'i' :: 'l' :: 's' :: ' ' :: 'i' :: 'd' :: ' ' ::lk.data)) = true :=
    subOccurs_of_pre _ _ rfl
  have hs5 : searchCap alts5
      (String.mk ('d' :: 'e' :: 't' :: 'a' :: 'i' :: 'l' :: 's' :: ' ' :: 'i' :: 'd' :: ' ' ::lk.data))
      = some lk.data :=
    searchGo_details_id lk.data h6 hlne hid hword hlnw
  rw [answer, hq, answerCore, if_neg hq1]
  rw [rule2, if_neg hr2]
  rw [rule3, if_neg hr3]
  rw [rule4, hs4]
  rw [show (subStr "details"
      (String.mk ('d' :: 'e' :: 't' :: 'a' :: 'i' :: 'l' :: 's' :: ' ' :: 'i' :: 'd' :: ' ' ::lk.data)) ||
      subStr "psets"
      (String.mk ('d' :: 'e' :: 't' :: 'a' :: 'i' :: 'l' :: 's' :: ' ' :: 'i' :: 'd' :: ' ' ::lk.data))) = true from by
    rw [hdet, Bool.true_or]]
  rw [show (match (some lk.data : Option (List Char)), (true : Bool) with
      | some gc, false =>
        (.ok (match lookupAssoc index.global_lookup (String.mk gc) with
           | none => "Kein Element mit GlobalId `" ++ (String.mk gc) ++ "` gefunden."
           | some hit => elementFoundMsg hit (String.mk gc)) : Except Unit String)
      | _, _ => rule5 (String.mk ('d' :: 'e' :: 't' :: 'a' :: 'i' :: 'l' :: 's' :: ' ' :: 'i' :: 'd' :: ' ' ::lk.data))
          ("details id " ++ qt) index)
      = rule5 (String.mk ('d' :: 'e' :: 't' :: 'a' :: 'i' :: 'l' :: 's' :: ' ' :: 'i' :: 'd' :: ' ' ::lk.data))
          ("details id " ++ qt) index from rfl]
  rw [rule5, hs5]
  show (match findGaItem index lk with
      | some p => (Except.ok (detailsMsg p.1 p.2 lk) : Except Unit String)
      | none => Except.ok ("Keine GA-Details zu `" ++ lk ++ "` gefunden."))
    = .ok (match findGaItem index lk with
      | some p => detailsMsg p.1 p.2 lk
      | none => "Keine GA-Details zu `" ++ lk ++ "` gefunden.")
  cases findGaItem index lk with
  | some p => rfl
  | none => rfl

lemma answer_psets_id_core (index : Index) (qt lk : String)
    (h6 : 6 ≤ lk.data.length)
    (hqne : qt.data ≠ [])
    (hqnw : ∀ c ∈ qt.data, c.isWhitespace = false)
    (hmap : qt.data.map Char.toLower = lk.data)
    (hplain : ∀ c ∈ lk.data, plainIdChar c = true)
    (hnd : subOccurs "details".data lk.data = false)
    (hnp : subOccurs "psets".data lk.data = false) :
    answer ("psets id " ++ qt) index =
      .ok (match findGaItem index lk with
           | some p => psetsMsg p.2 lk
           | none => "Keine PropertySets zu `" ++ lk ++ "` gefunden.") := by
  have hlnw : ∀ c ∈ lk.data, c.isWhitespace = false :=
    fun c hc => plainIdChar_not_ws c (hplain c hc)
  have hlne : lk.data ≠ [] := by
    intro hz
    rw [hz] at h6
    simp at h6
  have hid : ∀ c ∈ lk.data, idCharP c = true :=
    fun c hc => plainIdChar_idCharP c (hplain c hc)
  have hword : ∀ c ∈ lk.data, isWordCharB c = true :=
    fun c hc => plainIdChar_word c (hplain c hc)
  have hnA : 'ä' ∉ lk.data := fun hm => absurd (hplain 'ä' hm) (by decide)
  have hnU : 'ü' ∉ lk.data := fun hm => absurd (hplain 'ü' hm) (by decide)
  have hnS : ' ' ∉ lk.data := fun hm => absurd (hplain ' ' hm) (by decide)
  have hq : normalize ("psets id " ++ qt)
      = String.mk ('p' :: 's' :: 'e' :: 't' :: 's' :: ' ' :: 'i' :: 'd' :: ' ' ::lk.data) := by
    rw [normalize]
    have hdq : ("psets id " ++ qt).data
        = 'p' :: 's' :: 'e' :: 't' :: 's' :: ' ' :: 'i' :: 'd' :: ' ' ::qt.data := rfl
    rw [hdq, normalizeChars_psets_id_append qt.data hqne hqnw (by rw [hmap]; exact hlnw), hmap]
  have hq1 : ¬(String.mk ('p' :: 's' :: 'e' :: 't' :: 's' :: ' ' :: 'i' :: 'd' :: ' ' ::lk.data) = "hilfe" ∨
      String.mk ('p' :: 's' :: 'e' :: 't' :: 's' :: ' ' :: 'i' :: 'd' :: ' ' ::lk.data) = "help" ∨
      String.mk ('p' :: 's' :: 'e' :: 't' :: 's' :: ' ' :: 'i' :: 'd' :: ' ' ::lk.data) = "?") := by
    rintro (h | h | h) <;>
      exact mk_ne_of_data_length _ _ (by
        simp only [List.length_cons, List.length_nil]
        omega) h
  have hr2a : subStr "liste räume"
      (String.mk ('p' :: 's' :: 'e' :: 't' :: 's' :: ' ' :: 'i' :: 'd' :: ' ' ::lk.data)) = false := by
    show subOccurs "liste räume".data
      ('p' :: 's' :: 'e' :: 't' :: 's' :: ' ' :: 'i' :: 'd' :: ' ' ::lk.data) = false
    repeat refine subOccurs_cons_false _ _ _ (by rfl) ?_
    exact subOccurs_false_of_not_mem _ _ 'ä' (by decide) hnA
  have hr2b : subStr "räume auflisten"
      (String.mk ('p' :: 's' :: 'e' :: 't' :: 's' :: ' ' :: 'i' :: 'd' :: ' ' ::lk.data)) = false := by
    show subOccurs "räume auflisten".data
      ('p' :: 's' :: 'e' :: 't' :: 's' :: ' ' :: 'i' :: 'd' :: ' ' ::lk.data) = false
    repeat refine subOccurs_cons_false _ _ _ (by rfl) ?_
    exact subOccurs_false_of_not_mem _ _ 'ä' (by decide) hnA
  have hr3a : subStr "ga übersicht"
      (String.mk ('p' :: 's' :: 'e' :: 't' :: 's' :: ' ' :: 'i' :: 'd' :: ' ' ::lk.data)) = false := by
    show subOccurs "ga übersicht".data
      ('p' :: 's' :: 'e' :: 't' :: 's' :: ' ' :: 'i' :: 'd' :: ' ' ::lk.data) = false
    repeat refine subOccurs_cons_false _ _ _ (by rfl) ?_
    exact subOccurs_false_of_not_mem _ _ 'ü' (by decide) hnU
  have hr3b : subStr "ga in jedem raum"
      (String.mk ('p' :: 's' :: 'e' :: 't' :: 's' :: ' ' :: 'i' :: 'd' :: ' ' ::lk.data)) = false := by
    show subOccurs "ga in jedem raum".data
      ('p' :: 's' :: 'e' :: 't' :: 's' :: ' ' :: 'i' :: 'd' :: ' ' ::lk.data) = false
    repeat refine subOccurs_cons_false _ _ _ (by rfl) ?_
    exact subOccurs_false_of_not_mem _ _ ' ' (by decide) hnS
  have hr3c : subStr "in jedem raum"
      (String.mk ('p' :: 's' :: 'e' :: 't' :: 's' :: ' ' :: 'i' :: 'd' :: ' ' ::lk.data)) = false := by
    show subOccurs "in jedem raum".data
      ('p' :: 's' :: 'e' :: 't' :: 's' :: ' ' :: 'i' :: 'd' :: ' ' ::lk.data) = false
    repeat refine subOccurs_cons_false _ _ _ (by rfl) ?_
    exact subOccurs_false_of_not_mem _ _ ' ' (by decide) hnS
  have hr2 : ¬(subStr "liste räume"
      (String.mk ('p' :: 's' :: 'e' :: 't' :: 's' :: ' ' :: 'i' :: 'd' :: ' ' ::lk.data)) = true ∨
      subStr "räume auflisten"
      (String.mk ('p' :: 's' :: 'e' :: 't' :: 's' :: ' ' :: 'i' :: 'd' :: ' ' ::lk.data)) = true) := by
    rintro (h | h)
    · rw [hr2a] at h
      exact absurd h (by decide)
    · rw [hr2b] at h
      exact absurd h (by decide)
  have hr3 : ¬(subStr "ga übersicht"
      (String.mk ('p' :: 's' :: 'e' :: 't' :: 's' :: ' ' :: 'i' :: 'd' :: ' ' ::lk.data)) = true ∨
      subStr "ga in jedem raum"
      (String.mk ('p' :: 's' :: 'e' :: 't' :: 's' :: ' ' :: 'i' :: 'd' :: ' ' ::lk.data)) = true ∨
      subStr "in jedem raum"
      (String.mk ('p' :: 's' :: 'e' :: 't' :: 's' :: ' ' :: 'i' :: 'd' :: ' ' ::lk.data)) = true) := by
    rintro (h | h | h)
    · rw [hr3a] at h
      exact absurd h (by decide)
    · rw [hr3b] at h
      exact absurd h (by decide)
    · rw [hr3c] at h
      exact absurd h (by decide)
  have hs4 : searchCap alts4
      (String.mk ('p' :: 's' :: 'e' :: 't' :: 's' :: ' ' :: 'i' :: 'd' :: ' ' ::lk.data)) = some lk.data :=
    searchGo_alts4_after_psets lk.data h6 hlne hid hword hlnw
  have hps : subStr "psets"
      (String.mk ('p' :: 's' :: 'e' :: 't' :: 's' :: ' ' :: 'i' :: 'd' :: ' ' ::lk.data)) = true :=
    subOccurs_of_pre _ _ rfl
  have hs5 : searchCap alts5
      (String.mk ('p' :: 's' :: 'e' :: 't' :: 's' :: ' ' :: 'i' :: 'd' :: ' ' ::lk.data)) = none := by
    show searchGo alts5 none ('p' :: 's' :: 'e' :: 't' :: 's' :: ' ' :: 'i' :: 'd' :: ' ' ::lk.data) = none
    apply searchGo_alts5_none
    refine subOccurs_cons_false _ _ _ (by rfl) ?_
    refine subOccurs_cons_false _ _ _ (by rfl) ?_
    refine subOccurs_cons_false _ _ _ (by rfl) ?_
    refine subOccurs_cons_false _ _ _ (by rfl) ?_
    refine subOccurs_cons_false _ _ _ (by rfl) ?_
    refine subOccurs_cons_false _ _ _ (by rfl) ?_
    refine subOccurs_cons_false _ _ _ (by rfl) ?_
    refine subOccurs_cons_false _ _ _ (by rfl) ?_
    refine subOccurs_cons_false _ _ _ (by rfl) ?_
    exact hnd
  have hs6 : searchCap alts6
      (String.mk ('p' :: 's' :: 'e' :: 't' :: 's' :: ' ' :: 'i' :: 'd' :: ' ' ::lk.data)) = some lk.data :=
    searchGo_psets_id lk.data h6 hlne hid hword hlnw
  rw [answer, hq, answerCore, if_neg hq1]
  rw [rule2, if_neg hr2]
  rw [rule3, if_neg hr3]
  rw [rule4, hs4]
  rw [show (subStr "details"
      (String.mk ('p' :: 's' :: 'e' :: 't' :: 's' :: ' ' :: 'i' :: 'd' :: ' ' ::lk.data)) ||
      subStr "psets"
      (String.mk ('p' :: 's' :: 'e' :: 't' :: 's' :: ' ' :: 'i' :: 'd' :: ' ' ::lk.data))) = true from by
    rw [hps, Bool.or_true]]
  rw [show (match (some lk.data : Option (List Char)), (true : Bool) with
      | some gc, false =>
        (.ok (match lookupAssoc index.global_lookup (String.mk gc) with
           | none => "Kein Element mit GlobalId `" ++ (String.mk gc) ++ "` gefunden."
           | some hit => elementFoundMsg hit (String.mk gc)) : Except Unit String)
      | _, _ => rule5 (String.mk ('p' :: 's' :: 'e' :: 't' :: 's' :: ' ' :: 'i' :: 'd' :: ' ' ::lk.data))
          ("psets id " ++ qt) index)
      = rule5 (String.mk ('p' :: 's' :: 'e' :: 't' :: 's' :: ' ' :: 'i' :: 'd' :: ' ' ::lk.data))
          ("psets id " ++ qt) index from rfl]
  rw [rule5, hs5]
  rw [rule6, hs6]
  show (match findGaItem index lk with
      | some p => (Except.ok (psetsMsg p.2 lk) : Except Unit String)
      | none => Except.ok ("Keine PropertySets zu `" ++ lk ++ "` gefunden."))
    = .ok (match findGaItem index lk with
      | some p => psetsMsg p.2 lk
      | none => "Keine PropertySets zu `" ++ lk ++ "` gefunden.")
  cases findGaItem index lk with
  | some p => rfl
  | none => rfl

/-! ## Claim C6 -/

/-- C6 (counterexample): an identifier that is a key of `global_lookup` but
carries upper-case letters — `"ABCDEF"`, present and unclassified — makes
the claim fail: `id ABCDEF` does not return its summary, because the
normalized question is case-folded before the regex runs while lookup keys
keep their original case. -/
theorem c6_case_fold_cex :
    lookupAssoc cexIdxC6.global_lookup "ABCDEF" = some cexMetaC6
    ∧ findGaItem cexIdxC6 "ABCDEF" = none
    ∧ answer "id ABCDEF" cexIdxC6 = .ok "Kein Element mit GlobalId `abcdef` gefunden." :=
  ⟨rfl, rfl, rfl⟩

/-- C6 (amended): for an identifier that is a key of `global_lookup` but in
no zone's classified list, provided it is at least 6 characters drawn from
digits, lower-case ASCII letters and underscore and does not contain
"details" or "psets": `id <id>` answers with the element summary from
`global_lookup`, while `details id <id>` answers with the not-found message
scoped to GA-classified objects. -/
theorem c6_unclassified_id_vs_details (index : Index) (g : String) (mt : Meta)
    (h6 : 6 ≤ g.data.length)
    (hplain : ∀ c ∈ g.data, plainIdChar c = true)
    (hlow : g.data.map Char.toLower = g.data)
    (hnd : subOccurs "details".data g.data = false)
    (hnp : subOccurs "psets".data g.data = false)
    (hfound : lookupAssoc index.global_lookup g = some mt)
    (hnoga : findGaItem index g = none) :
    answer ("id " ++ g) index = .ok (elementFoundMsg mt g)
    ∧ answer ("details id " ++ g) index
        = .ok ("Keine GA-Details zu `" ++ g ++ "` gefunden.") := by
  have hqnw : ∀ c ∈ g.data, c.isWhitespace = false :=
    fun c hc => plainIdChar_not_ws c (hplain c hc)
  have hqne : g.data ≠ [] := by
    intro hz
    rw [hz] at h6
    simp at h6
  constructor
  · rw [answer_id_core index g g h6 hqne hqnw hlow hplain hnd hnp, hfound]
  · rw [answer_details_id_core index g g h6 hqne hqnw hlow hplain hnd hnp, hnoga]

/-- C6 (witness): the unclassified lower-case identifier "abcdef". -/
theorem c6_unclassified_id_vs_details_witness :
    answer ("id " ++ "abcdef") witIdxC6 = .ok (elementFoundMsg witMetaC6 "abcdef")
    ∧ answer ("details id " ++ "abcdef") witIdxC6
        = .ok ("Keine GA-Details zu `" ++ "abcdef" ++ "` gefunden.") :=
  c6_unclassified_id_vs_details witIdxC6 "abcdef" witMetaC6 (by decide) (by decide)
    (by decide) (by decide) (by decide) rfl rfl

/-! ## Claim C9 -/

/-- C9 (counterexample): with both "ABCDEF" and "abcdef" as `global_lookup`
keys, the query `id ABCDEF` does NOT return a not-found message — it
returns the summary stored under the lower-cased key — so the claim's
universal "always return the respective not-found message" fails. -/
theorem c9_case_collision_cex :
    lookupAssoc cexIdxC9.global_lookup "ABCDEF" = some cexMetaC9a
    ∧ answer "id ABCDEF" cexIdxC9 = .ok (elementFoundMsg cexMetaC9b "abcdef")
    ∧ elementFoundMsg cexMetaC9b "abcdef" ≠ "Kein Element mit GlobalId `abcdef` gefunden." :=
  ⟨rfl, rfl, by decide⟩

/-- C9 (amended): for a `global_lookup` key with at least one upper-case
letter, made of 6 or more letters/digits/underscores, whose lower-cased form
is neither a `global_lookup` key nor a classified item's identifier nor
contains "details"/"psets": the queries `id <key>`, `details id <key>` and
`psets id <key>` all return their respective not-found messages (naming the
lower-cased key), even though the identifier is present in the index. -/
theorem c9_uppercase_key_not_found (index : Index) (key lk : String) (mt : Meta)
    (h6 : 6 ≤ lk.data.length)
    (hkchars : ∀ c ∈ key.data, upperIdChar c = true)
    (hup : ∃ c ∈ key.data, c.isUpper = true)
    (hmap : key.data.map Char.toLower = lk.data)
    (hplain : ∀ c ∈ lk.data, plainIdChar c = true)
    (hnd : subOccurs "details".data lk.data = false)
    (hnp : subOccurs "psets".data lk.data = false)
    (hkey : lookupAssoc index.global_lookup key = some mt)
    (hmiss : lookupAssoc index.global_lookup lk = none)
    (hnoga : findGaItem index lk = none) :
    answer ("id " ++ key) index
        = .ok ("Kein Element mit GlobalId `" ++ lk ++ "` gefunden.")
    ∧ answer ("details id " ++ key) index
        = .ok ("Keine GA-Details zu `" ++ lk ++ "` gefunden.")
    ∧ answer ("psets id " ++ key) index
        = .ok ("Keine PropertySets zu `" ++ lk ++ "` gefunden.") := by
  have hknw : ∀ c ∈ key.data, c.isWhitespace = false :=
    fun c hc => upperIdChar_not_ws c (hkchars c hc)
  have hkne : key.data ≠ [] := by
    intro hz
    rw [hz] at hmap
    rw [← hmap] at h6
    simp at h6
  refine ⟨?_, ?_, ?_⟩
  · rw [answer_id_core index key lk h6 hkne hknw hmap hplain hnd hnp, hmiss]
  · rw [answer_details_id_core index key lk h6 hkne hknw hmap hplain hnd hnp, hnoga]
  · rw [answer_psets_id_core index key lk h6 hkne hknw hmap hplain hnd hnp, hnoga]

/-- C9 (witness): key "ABCDEF" present, "abcdef" absent. -/
theorem c9_uppercase_key_not_found_witness :
    answer ("id " ++ "ABCDEF") witIdxC9
        = .ok ("Kein Element mit GlobalId `" ++ "abcdef" ++ "` gefunden.")
    ∧ answer ("details id " ++ "ABCDEF") witIdxC9
        = .ok ("Keine GA-Details zu `" ++ "abcdef" ++ "` gefunden.")
    ∧ answer ("psets id " ++ "ABCDEF") witIdxC9
        = .ok ("Keine PropertySets zu `" ++ "abcdef" ++ "` gefunden.") :=
  c9_uppercase_key_not_found witIdxC9 "ABCDEF" "abcdef" cexMetaC9a (by decide) (by decide)
    (by decide) (by decide) (by decide) (by decide) (by decide) rfl rfl rfl
